import Mathlib

/-!
# Verification of the consensus-tools core

A shallow embedding of the consensus-tools repository's core modules
(`src/jobs/consensus.ts`, `src/jobs/engine.ts`, `src/jobs/slashing.ts`,
`src/ledger/ledger.ts`, `src/ledger/rules.ts`, `src/storage/JsonStorage.ts`)
together with proofs about the embedded definitions.

Conventions used throughout the embedding:
* TypeScript `number` is modelled as `Rat` (amounts, scores, weights,
  confidences); no claim here depends on float rounding.
* ISO timestamp strings are modelled by their `Date.parse` value as a `Nat`;
  `isPast(iso)` is `Date.parse(iso) <= Date.now()`, i.e. `e ≤ now`.
* `Record<string, unknown>` artifact payloads are modelled by an opaque
  association list `Artifact`.
* Generated identifiers (`newId`, whose `src/util/ids.ts` source is not part
  of the snapshot) are modelled as caller-supplied strings; where uniqueness
  matters (job ids) the transition relation carries a freshness side
  condition, matching `newId`'s documented uniqueness.  Ledger/audit entry
  ids are never read back by the core logic and are embedded as `""`.
* Exceptions are modelled with `Except String`; the string is the thrown
  message.  `JsonStorage.update` loads a fresh document, runs the mutator
  and persists only when the mutator did not throw, so an operation's
  persisted state on failure is its pre-state; `IStorage.update` below
  embeds exactly that contract.
-/

set_option linter.unusedVariables false

/-- JSON-object payloads (`Record<string, unknown>`), kept opaque. -/
abbrev Artifact := List (String × String)

inductive ConsensusPolicyType
  | TRUSTED_ARBITER
  | OWNER_PICK
  | FIRST_SUBMISSION_WINS
  | APPROVAL_VOTE
  | HIGHEST_CONFIDENCE_SINGLE
  | TOP_K_SPLIT
  | MAJORITY_VOTE
  | WEIGHTED_VOTE_SIMPLE
  | WEIGHTED_REPUTATION
  | SINGLE_WINNER
  deriving DecidableEq, Repr

inductive JobMode
  | SUBMISSION
  | VOTING
  deriving DecidableEq, Repr

inductive JobStatus
  | OPEN
  | CLOSED
  | RESOLVED
  | CANCELLED
  | CLAIMED
  | IN_PROGRESS
  | SUBMITTED
  | EXPIRED
  deriving DecidableEq, Repr

inductive ClaimStatus
  | ACTIVE
  | COMPLETED
  | EXPIRED
  | CANCELLED
  deriving DecidableEq, Repr

inductive SubmissionStatus
  | VALID
  | WITHDRAWN
  | SELECTED
  | REJECTED
  | SUBMITTED
  | ACCEPTED
  deriving DecidableEq, Repr

inductive VoteTargetType
  | SUBMISSION
  | CHOICE
  deriving DecidableEq, Repr

inductive WeightMode
  | equal
  | explicit
  | reputation
  deriving DecidableEq, Repr

inductive Settlement
  | immediate
  | staked
  | oracle
  deriving DecidableEq, Repr

inductive TieBreak
  | earliest
  | confidence
  | arbiter
  deriving DecidableEq, Repr

inductive RankOrdering
  | confidence
  | score
  deriving DecidableEq, Repr

inductive LedgerEntryType
  | FAUCET
  | STAKE
  | UNSTAKE
  | PAYOUT
  | SLASH
  | ADJUST
  | ESCROW_MINT
  deriving DecidableEq, Repr

/-- `consensusPolicy.approvalVote` sub-config (the `oracle` field is never
read by the core and is omitted). -/
structure ApprovalVoteConfig where
  weightMode : Option WeightMode := none
  settlement : Option Settlement := none
  voteSlashPercent : Option Rat := none
  deriving DecidableEq, Repr

structure ConsensusPolicyConfig where
  type : ConsensusPolicyType
  trustedArbiterAgentId : Option String := none
  minConfidence : Option Rat := none
  topK : Option Nat := none
  ordering : Option RankOrdering := none
  quorum : Option Nat := none
  minScore : Option Rat := none
  minMargin : Option Rat := none
  tieBreak : Option TieBreak := none
  approvalVote : Option ApprovalVoteConfig := none
  deriving DecidableEq, Repr

structure SlashingPolicy where
  enabled : Bool
  slashPercent : Rat
  slashFlat : Rat
  deriving DecidableEq, Repr

/-- `Job`; purely presentational fields (title/desc/tags/inputs/…) that no
core branch reads are omitted. -/
structure Job where
  id : String
  createdAt : Nat := 0
  expiresAt : Nat
  createdByAgentId : String
  mode : JobMode := JobMode.SUBMISSION
  reward : Rat
  stakeRequired : Rat
  maxParticipants : Nat
  minParticipants : Nat := 1
  consensusPolicy : ConsensusPolicyConfig
  slashingPolicy : SlashingPolicy
  status : JobStatus
  deriving DecidableEq, Repr

structure Bid where
  agentId : String
  jobId : String
  stakeAmount : Rat
  stakeAt : Nat
  deriving DecidableEq, Repr

structure Assignment where
  agentId : String
  jobId : String
  claimAt : Nat
  leaseUntil : Nat
  heartbeatAt : Nat
  status : ClaimStatus
  deriving DecidableEq, Repr

structure Submission where
  id : String
  jobId : String
  agentId : String
  submittedAt : Nat
  artifacts : Artifact
  summary : String := ""
  confidence : Rat
  requestedPayout : Rat := 0
  status : SubmissionStatus := SubmissionStatus.SUBMITTED
  deriving DecidableEq, Repr

structure Vote where
  id : String
  jobId : String
  submissionId : Option String := none
  targetType : Option VoteTargetType := none
  targetId : Option String := none
  choiceKey : Option String := none
  agentId : String
  score : Rat
  weight : Option Rat := none
  stakeAmount : Option Rat := none
  createdAt : Nat := 0
  deriving DecidableEq, Repr

structure LedgerEntry where
  id : String := ""
  atTime : Nat := 0
  type : LedgerEntryType
  agentId : String
  amount : Rat
  jobId : Option String := none
  reason : Option String := none
  deriving DecidableEq, Repr

/-- The decision trace (`consensusTrace`).  The numeric diagnostic fields
(`scores`, `voteCounts`, thresholds, quorum counts) are never read back by
the engine and are omitted from the embedding. -/
structure ConsensusTrace where
  policy : ConsensusPolicyType
  mode : Option String := none
  reason : Option String := none
  settlement : Option Settlement := none
  method : Option String := none
  recommendedSubmissionId : Option String := none
  recommendedAgentId : Option String := none
  deriving DecidableEq, Repr

structure Payout where
  agentId : String
  amount : Rat
  deriving DecidableEq, Repr

structure SlashRecord where
  agentId : String
  amount : Rat
  reason : String
  deriving DecidableEq, Repr

structure Resolution where
  jobId : String
  resolvedAt : Nat
  winners : List String
  winningSubmissionIds : List String
  payouts : List Payout
  slashes : List SlashRecord
  consensusTrace : ConsensusTrace
  finalArtifact : Option Artifact
  auditLog : List String
  deriving DecidableEq, Repr

structure AuditEvent where
  atTime : Nat
  type : String
  jobId : Option String := none
  actorAgentId : Option String := none
  deriving DecidableEq, Repr

structure DiagnosticEntry where
  atTime : Nat
  message : String
  deriving DecidableEq, Repr

structure StorageState where
  jobs : List Job
  bids : List Bid
  claims : List Assignment
  submissions : List Submission
  votes : List Vote
  resolutions : List Resolution
  ledger : List LedgerEntry
  audit : List AuditEvent
  errors : List DiagnosticEntry
  deriving DecidableEq, Repr

/-- JavaScript truthiness of an optional string (`undefined` and `""` are
falsy). -/
def strTruthy : Option String → Bool
  | none => false
  | some s => if s = "" then false else true

/-- `manualWinnerAgentIds && manualWinnerAgentIds.length` -/
def manualProvided : Option (List String) → Bool
  | some (_ :: _) => true
  | _ => false

/-- `manualSubmissionId ? [manualSubmissionId] : []` (string truthiness). -/
def optStrList (o : Option String) : List String :=
  match o with
  | some s => if s = "" then [] else [s]
  | none => []

/-- `scores[sid] || 0` over the association-list model of a
`Record<string, number>`. -/
def lookupRat : List (String × Rat) → String → Rat
  | [], _ => 0
  | p :: rest, k => if p.1 = k then p.2 else lookupRat rest k

def lookupNat : List (String × Nat) → String → Nat
  | [], _ => 0
  | p :: rest, k => if p.1 = k then p.2 else lookupNat rest k

/-- Assignment to a key of a `Record` object: overwrite in place, append
when absent. -/
def upsertRat : List (String × Rat) → String → Rat → List (String × Rat)
  | [], k, v => [(k, v)]
  | p :: rest, k, v => if p.1 = k then (k, v) :: rest else p :: upsertRat rest k v

def upsertNat : List (String × Nat) → String → Nat → List (String × Nat)
  | [], k, v => [(k, v)]
  | p :: rest, k, v => if p.1 = k then (k, v) :: rest else p :: upsertNat rest k v

/-- `m[k] = (m[k] || 0) + v` -/
def bumpRat (m : List (String × Rat)) (k : String) (v : Rat) : List (String × Rat) :=
  upsertRat m k (lookupRat m k + v)

def bumpNat (m : List (String × Nat)) (k : String) (v : Nat) : List (String × Nat) :=
  upsertNat m k (lookupNat m k + v)

/-! ## Ranking

Every `sort` in `consensus.ts` uses a comparator of the shape
"primary key descending, then a secondary numeric key ascending"; with a
consistent comparator, JavaScript's (spec-mandated stable) sort coincides
with stable insertion sort under the non-strict relation
`cmp a b ≤ 0`.  `lexLe k t` is that relation: `k` is the primary key
(higher first), `t` the tie key (lower first; descending ties pass a
negated key). -/

def lexLe (k t : α → Rat) (a b : α) : Prop :=
  if k a = k b then t a ≤ t b else k b ≤ k a

instance (k t : α → Rat) : DecidableRel (lexLe k t) := fun a b => by
  unfold lexLe
  infer_instance

/-- The embedding of `[...].sort(cmp)`: stable sort under `lexLe k t`. -/
def rankBy (k t : α → Rat) (l : List α) : List α :=
  List.insertionSort (lexLe k t) l

/-! ## Consensus resolver (`src/jobs/consensus.ts`) -/

structure ConsensusResult where
  winners : List String
  winningSubmissionIds : List String
  consensusTrace : ConsensusTrace
  finalArtifact : Option Artifact
  deriving DecidableEq, Repr

structure ConsensusInput where
  job : Job
  submissions : List Submission
  votes : List Vote
  reputation : String → Rat
  manualWinnerAgentIds : Option (List String) := none
  manualSubmissionId : Option String := none

/-- `findArtifact` (`match?.artifacts || null`; an artifact object is always
truthy, and an absent/empty `submissionId` yields `null`). -/
def findArtifact (input : ConsensusInput) (submissionId : Option String) : Option Artifact :=
  if strTruthy submissionId = false then none
  else
    match input.submissions.find? (fun sub => sub.id = submissionId.getD "") with
    | some m => some m.artifacts
    | none => none

/-- Votes that count for APPROVAL_VOTE:
`v.submissionId || (v.targetType === 'SUBMISSION' && v.targetId)`. -/
def approvalCountedVotes (votes : List Vote) : List Vote :=
  votes.filter (fun v =>
    strTruthy v.submissionId ||
      (if v.targetType = some VoteTargetType.SUBMISSION then strTruthy v.targetId else false))

/-- `vote.submissionId ?? (vote.targetType === 'SUBMISSION' ? vote.targetId :
undefined)`, followed by the `if (!sid) continue` truthiness guard. -/
def approvalVoteKey (v : Vote) : Option String :=
  let sid : Option String :=
    match v.submissionId with
    | some s => some s
    | none => if v.targetType = some VoteTargetType.SUBMISSION then v.targetId else none
  match sid with
  | some s => if s = "" then none else some s
  | none => none

/-- Per-vote weight under the configured `weightMode`. -/
def approvalWeight (weightMode : WeightMode) (reputation : String → Rat) (v : Vote) : Rat :=
  match weightMode with
  | WeightMode.equal => 1
  | WeightMode.explicit => v.weight.getD 1
  | WeightMode.reputation => reputation v.agentId

/-- `Math.max(-1, Math.min(1, vote.score ?? 0))` (the `Vote` model makes
`score` a required field, so `?? 0` is the identity). -/
def clampScore (s : Rat) : Rat :=
  max (-1) (min 1 s)

/-- The APPROVAL_VOTE per-submission score accumulator. -/
def approvalScores (weightMode : WeightMode) (reputation : String → Rat)
    (votes : List Vote) : List (String × Rat) :=
  votes.foldl
    (fun m v =>
      match approvalVoteKey v with
      | none => m
      | some sid => bumpRat m sid (clampScore v.score * approvalWeight weightMode reputation v))
    []

/-- The APPROVAL_VOTE per-submission vote counter. -/
def approvalVoteCounts (votes : List Vote) : List (String × Nat) :=
  votes.foldl
    (fun m v =>
      match approvalVoteKey v with
      | none => m
      | some sid => bumpNat m sid 1)
    []

structure RankedSub where
  sub : Submission
  score : Rat
  votes : Nat
  deriving DecidableEq, Repr

/-- Tie key of the APPROVAL_VOTE comparator (`tieBreak === 'confidence'`
compares confidences descending, anything else compares `submittedAt`
ascending). -/
def approvalTieKey (tieBreak : TieBreak) (r : RankedSub) : Rat :=
  match tieBreak with
  | TieBreak.confidence => -r.sub.confidence
  | _ => (r.sub.submittedAt : Rat)

/-- `quorum && votes.length < quorum` (`quorum = 0` is falsy). -/
def quorumFails (quorum : Option Nat) (nVotes : Nat) : Bool :=
  match quorum with
  | none => false
  | some q => if q = 0 then false else decide (nVotes < q)

/-- Effective `weightMode` of an APPROVAL_VOTE job
(`approvalVote?.weightMode ?? 'equal'`). -/
def approvalWeightMode (job : Job) : WeightMode :=
  (job.consensusPolicy.approvalVote.bind (fun c => c.weightMode)).getD WeightMode.equal

/-- Effective `settlement` of an APPROVAL_VOTE job
(`approvalVote?.settlement ?? 'immediate'`). -/
def approvalSettlement (job : Job) : Settlement :=
  (job.consensusPolicy.approvalVote.bind (fun c => c.settlement)).getD Settlement.immediate

/-- Effective `tieBreak` (`consensusPolicy.tieBreak ?? 'earliest'`). -/
def effTieBreak (job : Job) : TieBreak :=
  job.consensusPolicy.tieBreak.getD TieBreak.earliest

/-- Effective `minScore` (`?? 1`). -/
def effMinScore (job : Job) : Rat :=
  job.consensusPolicy.minScore.getD 1

/-- Effective `minMargin` (`?? 0`). -/
def effMinMargin (job : Job) : Rat :=
  job.consensusPolicy.minMargin.getD 0

/-- The ranked submission list of the APPROVAL_VOTE branch. -/
def approvalRanked (input : ConsensusInput) : List RankedSub :=
  let weightMode := approvalWeightMode input.job
  let votes := approvalCountedVotes input.votes
  let scores := approvalScores weightMode input.reputation votes
  let voteCounts := approvalVoteCounts votes
  rankBy (fun r => r.score) (approvalTieKey (effTieBreak input.job))
    (input.submissions.map (fun sub =>
      { sub := sub, score := lookupRat scores sub.id, votes := lookupNat voteCounts sub.id }))

/-- `margin = second ? best.score - second.score : best.score`. -/
def approvalMargin (best : RankedSub) (rest : List RankedSub) : Rat :=
  match rest with
  | second :: _ => best.score - second.score
  | [] => best.score

/-- The APPROVAL_VOTE branch of `resolveConsensus`
(`src/jobs/consensus.ts:70-183`). -/
def approvalVoteBranch (input : ConsensusInput) : ConsensusResult :=
  let policy := ConsensusPolicyType.APPROVAL_VOTE
  let quorum := input.job.consensusPolicy.quorum
  let minScore := effMinScore input.job
  let minMargin := effMinMargin input.job
  let tieBreak := effTieBreak input.job
  let settlement := approvalSettlement input.job
  -- Oracle settlement can always be manually finalized by the arbiter, even with no votes.
  if settlement = Settlement.oracle ∧ manualProvided input.manualWinnerAgentIds then
    { winners := input.manualWinnerAgentIds.getD []
      winningSubmissionIds := optStrList input.manualSubmissionId
      consensusTrace := { policy := policy, settlement := some settlement, mode := some "manual" }
      finalArtifact := findArtifact input input.manualSubmissionId }
  else
    let votes := approvalCountedVotes input.votes
    if quorumFails quorum votes.length then
      { winners := []
        winningSubmissionIds := []
        consensusTrace :=
          { policy := policy, settlement := some settlement, reason := some "quorum_not_met" }
        finalArtifact := none }
    else
      match approvalRanked input with
      | [] =>
        -- unreachable: `resolveConsensus` only enters this branch with a
        -- non-empty submission list; mirrors the `!best` half of
        -- `if (!best || best.votes === 0)`.
        { winners := []
          winningSubmissionIds := []
          consensusTrace :=
            { policy := policy, settlement := some settlement, reason := some "no_votes" }
          finalArtifact := none }
      | best :: rest =>
        let margin := approvalMargin best rest
        if best.votes = 0 then
          { winners := []
            winningSubmissionIds := []
            consensusTrace :=
              { policy := policy, settlement := some settlement, reason := some "no_votes" }
            finalArtifact := none }
        else if best.score < minScore ∨ margin < minMargin then
          { winners := []
            winningSubmissionIds := []
            consensusTrace :=
              { policy := policy, settlement := some settlement
                reason := some "threshold_not_met" }
            finalArtifact := none }
        else if settlement = Settlement.oracle ∨ tieBreak = TieBreak.arbiter then
          -- Oracle / arbiter settlement: allow manual finalization, otherwise
          -- provide a recommendation.
          if manualProvided input.manualWinnerAgentIds then
            { winners := input.manualWinnerAgentIds.getD []
              winningSubmissionIds := optStrList input.manualSubmissionId
              consensusTrace :=
                { policy := policy, settlement := some settlement, mode := some "manual"
                  recommendedSubmissionId := some best.sub.id
                  recommendedAgentId := some best.sub.agentId }
              finalArtifact := findArtifact input input.manualSubmissionId }
          else
            { winners := []
              winningSubmissionIds := []
              consensusTrace :=
                { policy := policy, settlement := some settlement
                  mode := some "awaiting_oracle"
                  recommendedSubmissionId := some best.sub.id
                  recommendedAgentId := some best.sub.agentId }
              finalArtifact := none }
        else
          { winners := [best.sub.agentId]
            winningSubmissionIds := [best.sub.id]
            consensusTrace := { policy := policy, settlement := some settlement }
            finalArtifact := some best.sub.artifacts }

/-- The TOP_K_SPLIT score accumulator (`if (!vote.submissionId) continue`;
`weight = vote.weight ?? vote.score ?? 1`; contribution
`(vote.score ?? 1) * weight`; `score` is a required field of `Vote`). -/
def topKScores (votes : List Vote) : List (String × Rat) :=
  votes.foldl
    (fun m v =>
      if strTruthy v.submissionId then
        bumpRat m (v.submissionId.getD "") (v.score * v.weight.getD v.score)
      else m)
    []

/-- The fallback (MAJORITY_VOTE / WEIGHTED_VOTE_SIMPLE / WEIGHTED_REPUTATION
/ any other unhandled policy) per-submission score accumulator. -/
def fallbackScores (policy : ConsensusPolicyType) (reputation : String → Rat)
    (votes : List Vote) : List (String × Rat) :=
  votes.foldl
    (fun m v =>
      let weight : Rat :=
        if policy = ConsensusPolicyType.WEIGHTED_REPUTATION then reputation v.agentId
        else if policy = ConsensusPolicyType.WEIGHTED_VOTE_SIMPLE then v.weight.getD v.score
        else 1
      if strTruthy v.submissionId then
        bumpRat m (v.submissionId.getD "") (v.score * weight)
      else m)
    []

def fallbackVoteCounts (votes : List Vote) : List (String × Nat) :=
  votes.foldl
    (fun m v =>
      if strTruthy v.submissionId then bumpNat m (v.submissionId.getD "") 1 else m)
    []

/-- `resolveConsensus` (`src/jobs/consensus.ts:19-300`). -/
def resolveConsensus (input : ConsensusInput) : ConsensusResult :=
  let policy := input.job.consensusPolicy.type
  if policy = ConsensusPolicyType.TRUSTED_ARBITER then
    if manualProvided input.manualWinnerAgentIds then
      { winners := input.manualWinnerAgentIds.getD []
        winningSubmissionIds := optStrList input.manualSubmissionId
        consensusTrace := { policy := policy, mode := some "manual" }
        finalArtifact := findArtifact input input.manualSubmissionId }
    else
      { winners := []
        winningSubmissionIds := []
        consensusTrace := { policy := policy, mode := some "awaiting_arbiter" }
        finalArtifact := none }
  else if policy = ConsensusPolicyType.OWNER_PICK then
    if manualProvided input.manualWinnerAgentIds then
      { winners := input.manualWinnerAgentIds.getD []
        winningSubmissionIds := optStrList input.manualSubmissionId
        consensusTrace := { policy := policy, mode := some "manual" }
        finalArtifact := findArtifact input input.manualSubmissionId }
    else
      { winners := []
        winningSubmissionIds := []
        consensusTrace := { policy := policy, reason := some "no_owner_selection" }
        finalArtifact := none }
  else if input.submissions.isEmpty then
    { winners := []
      winningSubmissionIds := []
      consensusTrace := { policy := policy, reason := some "no_submissions" }
      finalArtifact := none }
  else if policy = ConsensusPolicyType.FIRST_SUBMISSION_WINS then
    match rankBy (fun _ => 0) (fun s : Submission => (s.submittedAt : Rat)) input.submissions with
    | [] =>
      -- unreachable: submissions is non-empty here.
      { winners := []
        winningSubmissionIds := []
        consensusTrace := { policy := policy, reason := some "no_submissions" }
        finalArtifact := none }
    | winner :: _ =>
      { winners := [winner.agentId]
        winningSubmissionIds := [winner.id]
        consensusTrace := { policy := policy, method := some "first_submission" }
        finalArtifact := some winner.artifacts }
  else if policy = ConsensusPolicyType.APPROVAL_VOTE then
    approvalVoteBranch input
  else if policy = ConsensusPolicyType.HIGHEST_CONFIDENCE_SINGLE then
    let minConfidence := input.job.consensusPolicy.minConfidence.getD 0
    let sorted :=
      rankBy (fun s : Submission => s.confidence) (fun s => (s.submittedAt : Rat))
        (input.submissions.filter (fun sub => minConfidence ≤ sub.confidence))
    match sorted with
    | [] =>
      { winners := []
        winningSubmissionIds := []
        consensusTrace := { policy := policy, reason := some "min_confidence_not_met" }
        finalArtifact := none }
    | winner :: _ =>
      { winners := [winner.agentId]
        winningSubmissionIds := [winner.id]
        consensusTrace := { policy := policy, method := some "highest_confidence" }
        finalArtifact := some winner.artifacts }
  else if policy = ConsensusPolicyType.TOP_K_SPLIT then
    let ordering := input.job.consensusPolicy.ordering.getD RankOrdering.confidence
    let topK := max 1 (input.job.consensusPolicy.topK.getD 2)
    let scores := if ordering = RankOrdering.score then topKScores input.votes else []
    let metric : Submission → Rat := fun sub =>
      if ordering = RankOrdering.score then lookupRat scores sub.id else sub.confidence
    let ranked :=
      (rankBy metric (fun s : Submission => (s.submittedAt : Rat)) input.submissions).take topK
    match ranked with
    | [] =>
      { winners := []
        winningSubmissionIds := []
        consensusTrace := { policy := policy, reason := some "no_submissions" }
        finalArtifact := none }
    | first :: _ =>
      { winners := ranked.map (fun s => s.agentId)
        winningSubmissionIds := ranked.map (fun s => s.id)
        consensusTrace := { policy := policy }
        finalArtifact := some first.artifacts }
  else
    -- MAJORITY_VOTE / WEIGHTED_VOTE_SIMPLE / WEIGHTED_REPUTATION (and any
    -- other type, e.g. the legacy SINGLE_WINNER alias) share this path.
    if quorumFails input.job.consensusPolicy.quorum input.votes.length then
      { winners := []
        winningSubmissionIds := []
        consensusTrace := { policy := policy, reason := some "quorum_not_met" }
        finalArtifact := none }
    else
      let scores := fallbackScores policy input.reputation input.votes
      match rankBy (fun s : Submission => lookupRat scores s.id)
          (fun s => (s.submittedAt : Rat)) input.submissions with
      | [] =>
        -- unreachable: submissions is non-empty here.
        { winners := []
          winningSubmissionIds := []
          consensusTrace := { policy := policy, reason := some "no_submissions" }
          finalArtifact := none }
      | best :: _ =>
        { winners := [best.agentId]
          winningSubmissionIds := [best.id]
          consensusTrace := { policy := policy }
          finalArtifact := some best.artifacts }

/-! ## Ledger rules (`src/ledger/rules.ts`) -/

/-- `getBalance` — a pure fold over the ledger. -/
def getBalance (entries : List LedgerEntry) (agentId : String) : Rat :=
  entries.foldl (fun sum entry => if entry.agentId = agentId then sum + entry.amount else sum) 0

/-- `ensureNonNegative` — throws an insufficiency error on a negative balance. -/
def ensureNonNegative (balance : Rat) (context : String) : Except String Unit :=
  if balance < 0 then Except.error ("consensus-tools: insufficient credits for " ++ context)
  else Except.ok ()

/-! ## Storage (`src/storage/JsonStorage.ts`)

`update` runs the mutator against a freshly loaded document under the mutex
and persists (`saveState`) only when the mutator did not throw; a throwing
mutator leaves the persisted document untouched. -/

def IStorage.update (s : StorageState) (f : StorageState → Except String (StorageState × α)) :
    StorageState × Except String α :=
  match f s with
  | Except.ok (s', a) => (s', Except.ok a)
  | Except.error e => (s, Except.error e)

/-! ## Ledger engine (`src/ledger/ledger.ts`) -/

inductive BalancesMode
  | initial
  | override
  deriving DecidableEq, Repr

/-- The configuration values the core reads
(`config.local.slashingEnabled`, `config.local.ledger.*`,
`job.slashingPolicy` lives on the job itself). -/
structure EngineConfig where
  slashingEnabled : Bool
  initialCreditsPerAgent : Rat
  balances : List (String × Rat)
  balancesMode : Option BalancesMode := none
  deriving DecidableEq, Repr

def LedgerEntryType.name : LedgerEntryType → String
  | LedgerEntryType.FAUCET => "FAUCET"
  | LedgerEntryType.STAKE => "STAKE"
  | LedgerEntryType.UNSTAKE => "UNSTAKE"
  | LedgerEntryType.PAYOUT => "PAYOUT"
  | LedgerEntryType.SLASH => "SLASH"
  | LedgerEntryType.ADJUST => "ADJUST"
  | LedgerEntryType.ESCROW_MINT => "ESCROW_MINT"

/-- One iteration of the `applyConfigBalances` loop body
(`initial` mode skips agents with a positive balance;
`Number.isFinite(delta)` always holds over `Rat`). -/
def applyConfigBalancesStep (mode : BalancesMode) (now : Nat) (st : StorageState)
    (p : String × Rat) : Except String StorageState :=
  let agentId := p.1
  let target := p.2
  let current := getBalance st.ledger agentId
  if mode = BalancesMode.initial ∧ 0 < current then
    Except.ok st
  else
    let delta := target - current
    if delta = 0 then
      Except.ok st
    else
      let nextBalance := current + delta
      match ensureNonNegative nextBalance (agentId ++ " config balance") with
      | Except.error e => Except.error e
      | Except.ok _ =>
        Except.ok { st with
          ledger := st.ledger ++
            [{ atTime := now, type := LedgerEntryType.ADJUST, agentId := agentId,
               amount := delta, reason := some "config_balance" }] }

/-- The `applyConfigBalances` mutator: one pass over the configured targets
(`applyConfigBalancesStep` per agent), inside a single update. -/
def configBalancesFold (mode : BalancesMode) (now : Nat) :
    List (String × Rat) → StorageState → Except String StorageState
  | [], s => Except.ok s
  | p :: rest, s =>
    match applyConfigBalancesStep mode now s p with
    | Except.error e => Except.error e
    | Except.ok s' => configBalancesFold mode now rest s'

def applyConfigBalancesMutator (balances : List (String × Rat)) (mode : BalancesMode)
    (now : Nat) (s : StorageState) : Except String (StorageState × Unit) :=
  match configBalancesFold mode now balances s with
  | Except.error e => Except.error e
  | Except.ok s' => Except.ok (s', ())

/-- `LedgerEngine.applyConfigBalances` (no update is issued when the target
map is empty). -/
def LedgerEngine.applyConfigBalances (balances : List (String × Rat)) (mode : BalancesMode)
    (now : Nat) (s : StorageState) : StorageState × Except String Unit :=
  if balances.isEmpty then (s, Except.ok ())
  else IStorage.update s (applyConfigBalancesMutator balances mode now)

/-- `LedgerEngine.appendEntry`: one `update` that checks the post-entry
balance and appends, then (in `override` balances mode) a follow-up
`applyConfigBalances` call. -/
def appendEntryMutator (entry : LedgerEntry) (st : StorageState) :
    Except String (StorageState × LedgerEntry) :=
  let currentBalance := getBalance st.ledger entry.agentId
  let nextBalance := currentBalance + entry.amount
  match ensureNonNegative nextBalance (entry.agentId ++ " after " ++ entry.type.name) with
  | Except.error e => Except.error e
  | Except.ok _ => Except.ok ({ st with ledger := st.ledger ++ [entry] }, entry)

def LedgerEngine.appendEntry (cfg : EngineConfig) (entry : LedgerEntry) (s : StorageState) :
    StorageState × Except String LedgerEntry :=
  let r := IStorage.update s (appendEntryMutator entry)
  match r.2 with
  | Except.error e => (r.1, Except.error e)
  | Except.ok v =>
    if cfg.balancesMode = some BalancesMode.override then
      let r2 := LedgerEngine.applyConfigBalances cfg.balances BalancesMode.override 0 r.1
      match r2.2 with
      | Except.error e => (r2.1, Except.error e)
      | Except.ok _ => (r2.1, Except.ok v)
    else (r.1, Except.ok v)

def LedgerEngine.faucet (cfg : EngineConfig) (agentId : String) (amount : Rat) (reason : String)
    (now : Nat) (s : StorageState) : StorageState × Except String LedgerEntry :=
  LedgerEngine.appendEntry cfg
    { atTime := now, type := LedgerEntryType.FAUCET, agentId := agentId, amount := amount,
      reason := some reason } s

def LedgerEngine.stake (cfg : EngineConfig) (agentId : String) (amount : Rat)
    (jobId : Option String) (now : Nat) (s : StorageState) :
    StorageState × Except String LedgerEntry :=
  LedgerEngine.appendEntry cfg
    { atTime := now, type := LedgerEntryType.STAKE, agentId := agentId, amount := -|amount|,
      jobId := jobId } s

def LedgerEngine.unstake (cfg : EngineConfig) (agentId : String) (amount : Rat)
    (jobId : Option String) (now : Nat) (s : StorageState) :
    StorageState × Except String LedgerEntry :=
  LedgerEngine.appendEntry cfg
    { atTime := now, type := LedgerEntryType.UNSTAKE, agentId := agentId, amount := |amount|,
      jobId := jobId } s

def LedgerEngine.payout (cfg : EngineConfig) (agentId : String) (amount : Rat)
    (jobId : Option String) (now : Nat) (s : StorageState) :
    StorageState × Except String LedgerEntry :=
  LedgerEngine.appendEntry cfg
    { atTime := now, type := LedgerEntryType.PAYOUT, agentId := agentId, amount := |amount|,
      jobId := jobId } s

def LedgerEngine.slash (cfg : EngineConfig) (agentId : String) (amount : Rat)
    (jobId : Option String) (reason : Option String) (now : Nat) (s : StorageState) :
    StorageState × Except String LedgerEntry :=
  LedgerEngine.appendEntry cfg
    { atTime := now, type := LedgerEntryType.SLASH, agentId := agentId, amount := -|amount|,
      jobId := jobId, reason := reason } s

/-- `LedgerEngine.ensureInitialCredits`: a separately committed update that
faucets `initialCreditsPerAgent` to an agent with no positive balance; it
never throws. -/
def LedgerEngine.ensureInitialCredits (cfg : EngineConfig) (agentId : String) (now : Nat)
    (s : StorageState) : StorageState :=
  if cfg.initialCreditsPerAgent ≤ 0 then s
  else
    (IStorage.update s (fun st =>
      let balance := getBalance st.ledger agentId
      if 0 < balance then Except.ok (st, ())
      else
        Except.ok ({ st with
          ledger := st.ledger ++
            [{ atTime := now, type := LedgerEntryType.FAUCET, agentId := agentId,
               amount := cfg.initialCreditsPerAgent, reason := some "initial_credit" }] }, ()))).1

/-! ## Slashing (`src/jobs/slashing.ts`) -/

/-- `calculateSlashAmount` (the `|| 0` guards on the required numeric policy
fields are the identity in this model). -/
def calculateSlashAmount (job : Job) (cfg : EngineConfig) (stakeAmount : Rat) : Rat :=
  if cfg.slashingEnabled = false then 0
  else if job.slashingPolicy.enabled = false then 0
  else
    let percent := job.slashingPolicy.slashPercent
    let flat := job.slashingPolicy.slashFlat
    let byPercent := stakeAmount * percent
    max byPercent flat

/-! ## Job engine (`src/jobs/engine.ts`)

Each engine method is embedded as the mutator it passes to
`storage.update`, plus a wrapper that applies `IStorage.update` (and, for
`claimJob`, the separately committed `ensureInitialCredits` call that
precedes the update).  `newId` values that are later looked up (job,
submission and vote ids) are explicit parameters; ledger/audit ids are
modelled as `""`.  `nowIso()` is the `now : Nat` parameter. -/

/-- `isPast(iso)` = `Date.parse(iso) <= Date.now()`. -/
def isPast (t now : Nat) : Bool :=
  decide (t ≤ now)

/-- Mutating the object returned by `find` in place: replace the first
element satisfying `p`. -/
def replaceFirst (p : α → Bool) (f : α → α) : List α → List α
  | [] => []
  | x :: xs => if p x then f x :: xs else x :: replaceFirst p f xs

/-- `postJob` input after default/preset/override merging; the merge itself
(`{...defaults, ...preset, ...policyConfigJson, ...override}`) is abstracted
by taking the already-merged values — no claim depends on the merge. -/
structure JobPostInput where
  reward : Rat
  stakeRequired : Rat
  maxParticipants : Nat
  minParticipants : Nat := 1
  consensusPolicy : ConsensusPolicyConfig
  slashingPolicy : SlashingPolicy
  expiresSeconds : Nat
  mode : JobMode := JobMode.SUBMISSION

/-- `JobEngine.postJob`: builds the job (status `OPEN`), then one update
pushing it and an audit event.  Never throws. -/
def JobEngine.postJob (agentId : String) (input : JobPostInput) (jobId : String) (now : Nat)
    (s : StorageState) : StorageState × Job :=
  let job : Job :=
    { id := jobId, createdAt := now, expiresAt := now + input.expiresSeconds,
      createdByAgentId := agentId, mode := input.mode, reward := input.reward,
      stakeRequired := input.stakeRequired, maxParticipants := input.maxParticipants,
      minParticipants := input.minParticipants, consensusPolicy := input.consensusPolicy,
      slashingPolicy := input.slashingPolicy, status := JobStatus.OPEN }
  ({ s with
      jobs := s.jobs ++ [job]
      audit := s.audit ++
        [{ atTime := now, type := "job_posted", jobId := some jobId,
           actorAgentId := some agentId }] },
    job)

/-- `applyExpiry` — the lazy expiry marking run by `listJobs` / `getJob` /
`getStatus` (the modified state is then persisted with `saveState`). -/
def JobEngine.applyExpiry (now : Nat) (s : StorageState) : StorageState :=
  { s with
    jobs := s.jobs.map (fun job =>
      if (job.status = JobStatus.OPEN ∨ job.status = JobStatus.IN_PROGRESS ∨
            job.status = JobStatus.SUBMITTED) ∧ isPast job.expiresAt now then
        { job with status := JobStatus.EXPIRED }
      else job) }

structure ClaimInput where
  stakeAmount : Rat
  leaseSeconds : Nat

/-- The mutator of `JobEngine.claimJob`. -/
def JobEngine.claimJobMutator (agentId jobId : String) (input : ClaimInput) (now : Nat)
    (s : StorageState) : Except String (StorageState × Assignment) :=
  match s.jobs.find? (fun j => decide (j.id = jobId)) with
  | none => Except.error ("Job not found: " ++ jobId)
  | some job =>
    if job.status = JobStatus.RESOLVED ∨ job.status = JobStatus.CANCELLED then
      Except.error "Job is not claimable"
    else if isPast job.expiresAt now then
      -- the mutator assigns `job.status = 'EXPIRED'` and then throws; the
      -- surrounding `storage.update` never persists a throwing mutator's
      -- writes, so the committed state is unchanged.
      Except.error "Job has expired"
    else if (s.claims.find? (fun c =>
        decide (c.jobId = jobId ∧ c.agentId = agentId ∧ c.status = ClaimStatus.ACTIVE))).isSome then
      Except.error "Job already claimed by this agent"
    else if job.maxParticipants ≤
        (s.claims.filter (fun c =>
          decide (c.jobId = jobId ∧ c.status = ClaimStatus.ACTIVE))).length then
      Except.error "Job is full"
    else
      let stakeAmount := max input.stakeAmount job.stakeRequired
      let currentBalance := getBalance s.ledger agentId
      let nextBalance := currentBalance - |stakeAmount|
      match ensureNonNegative nextBalance (agentId ++ " stake for " ++ jobId) with
      | Except.error e => Except.error e
      | Except.ok _ =>
        let assignment : Assignment :=
          { agentId := agentId, jobId := jobId, claimAt := now,
            leaseUntil := now + input.leaseSeconds, heartbeatAt := now,
            status := ClaimStatus.ACTIVE }
        Except.ok
          ({ s with
              ledger := s.ledger ++
                [{ atTime := now, type := LedgerEntryType.STAKE, agentId := agentId,
                   amount := -|stakeAmount|, jobId := some jobId }]
              bids := s.bids ++
                [{ agentId := agentId, jobId := jobId, stakeAmount := stakeAmount,
                   stakeAt := now }]
              jobs := replaceFirst (fun j => decide (j.id = jobId))
                (fun j => { j with status := JobStatus.IN_PROGRESS }) s.jobs
              claims := s.claims ++ [assignment]
              audit := s.audit ++
                [{ atTime := now, type := "job_claimed", jobId := some jobId,
                   actorAgentId := some agentId }] },
            assignment)

/-- `JobEngine.claimJob` = the separately committed `ensureInitialCredits`
call followed by the claim update. -/
def JobEngine.claimJob (cfg : EngineConfig) (agentId jobId : String) (input : ClaimInput)
    (now : Nat) (s : StorageState) : StorageState × Except String Assignment :=
  let s₀ := LedgerEngine.ensureInitialCredits cfg agentId now s
  IStorage.update s₀ (JobEngine.claimJobMutator agentId jobId input now)

/-- `JobEngine.heartbeat` — no-op when no matching ACTIVE assignment exists. -/
def JobEngine.heartbeat (agentId jobId : String) (now : Nat) (s : StorageState) : StorageState :=
  { s with
    claims := replaceFirst
      (fun c => decide (c.jobId = jobId ∧ c.agentId = agentId ∧ c.status = ClaimStatus.ACTIVE))
      (fun c => { c with heartbeatAt := now }) s.claims }

structure SubmitInput where
  artifacts : Artifact := []
  summary : String := ""
  confidence : Rat
  requestedPayout : Option Rat := none

/-- The mutator of `JobEngine.submitJob`. -/
def JobEngine.submitJobMutator (agentId jobId subId : String) (input : SubmitInput) (now : Nat)
    (s : StorageState) : Except String (StorageState × Submission) :=
  match s.jobs.find? (fun j => decide (j.id = jobId)) with
  | none => Except.error ("Job not found: " ++ jobId)
  | some job =>
    if job.status = JobStatus.RESOLVED ∨ job.status = JobStatus.CANCELLED then
      Except.error "Job is closed"
    else
      let submission : Submission :=
        { id := subId, jobId := jobId, agentId := agentId, submittedAt := now,
          artifacts := input.artifacts, summary := input.summary,
          confidence := input.confidence,
          requestedPayout := input.requestedPayout.getD job.reward,
          status := SubmissionStatus.SUBMITTED }
      Except.ok
        ({ s with
            submissions := s.submissions ++ [submission]
            jobs := replaceFirst (fun j => decide (j.id = jobId))
              (fun j => { j with status := JobStatus.SUBMITTED }) s.jobs
            audit := s.audit ++
              [{ atTime := now, type := "job_submitted", jobId := some jobId,
                 actorAgentId := some agentId }] },
          submission)

def JobEngine.submitJob (agentId jobId subId : String) (input : SubmitInput) (now : Nat)
    (s : StorageState) : StorageState × Except String Submission :=
  IStorage.update s (JobEngine.submitJobMutator agentId jobId subId input now)

structure VoteInput where
  submissionId : Option String := none
  targetType : Option VoteTargetType := none
  targetId : Option String := none
  choiceKey : Option String := none
  weight : Option Rat := none
  stakeAmount : Option Rat := none
  score : Option Rat := none

/-- `input.targetType ?? (input.submissionId ? 'SUBMISSION' : input.choiceKey
? 'CHOICE' : undefined)` (string truthiness on the fallbacks). -/
def voteTargetType (input : VoteInput) : Option VoteTargetType :=
  match input.targetType with
  | some t => some t
  | none =>
    if strTruthy input.submissionId then some VoteTargetType.SUBMISSION
    else if strTruthy input.choiceKey then some VoteTargetType.CHOICE
    else none

/-- `input.targetId ?? input.submissionId`. -/
def voteTargetId (input : VoteInput) : Option String :=
  match input.targetId with
  | some t => some t
  | none => input.submissionId

/-- The `Vote` record built by `JobEngine.vote`
(`score = input.score ?? input.weight ?? 0`). -/
def mkVote (agentId jobId voteId : String) (input : VoteInput) (now : Nat) : Vote :=
  let targetType := voteTargetType input
  let targetId := voteTargetId input
  let score := (input.score.or input.weight).getD 0
  { id := voteId, jobId := jobId,
    submissionId :=
      match input.submissionId with
      | some sid => some sid
      | none => if targetType = some VoteTargetType.SUBMISSION then targetId else none,
    targetType := targetType, targetId := targetId, choiceKey := input.choiceKey,
    agentId := agentId, score := score, weight := some (input.weight.getD score),
    stakeAmount := input.stakeAmount, createdAt := now }

/-- The target-submission existence check of `JobEngine.vote`. -/
def voteSubmissionOk (jobId : String) (input : VoteInput) (s : StorageState) : Bool :=
  if voteTargetType input = some VoteTargetType.SUBMISSION then
    (s.submissions.find? (fun sb =>
      decide (some sb.id = voteTargetId input ∧ sb.jobId = jobId))).isSome
  else true

/-- The mutator of `JobEngine.vote`.  The guard rejects submission-mode jobs
whose policy type is in the listed set (note: the source tests the legacy
name `SINGLE_WINNER`, not `FIRST_SUBMISSION_WINS`). -/
def JobEngine.voteMutator (agentId jobId voteId : String) (input : VoteInput) (now : Nat)
    (s : StorageState) : Except String (StorageState × Vote) :=
  match s.jobs.find? (fun j => decide (j.id = jobId)) with
  | none => Except.error ("Job not found: " ++ jobId)
  | some job =>
    if job.mode = JobMode.SUBMISSION ∧
        (job.consensusPolicy.type = ConsensusPolicyType.SINGLE_WINNER ∨
          job.consensusPolicy.type = ConsensusPolicyType.HIGHEST_CONFIDENCE_SINGLE ∨
          job.consensusPolicy.type = ConsensusPolicyType.OWNER_PICK ∨
          job.consensusPolicy.type = ConsensusPolicyType.TOP_K_SPLIT ∨
          job.consensusPolicy.type = ConsensusPolicyType.TRUSTED_ARBITER) then
      Except.error "Voting not enabled for this job"
    else if voteSubmissionOk jobId input s = false then
      Except.error "Submission not found"
    else
      let vote := mkVote agentId jobId voteId input now
      Except.ok
        ({ s with
            votes := s.votes ++ [vote]
            audit := s.audit ++
              [{ atTime := now, type := "job_voted", jobId := some jobId,
                 actorAgentId := some agentId }] },
          vote)

def JobEngine.vote (agentId jobId voteId : String) (input : VoteInput) (now : Nat)
    (s : StorageState) : StorageState × Except String Vote :=
  IStorage.update s (JobEngine.voteMutator agentId jobId voteId input now)

structure ResolveInput where
  manualWinners : Option (List String) := none
  manualSubmissionId : Option String := none

/-- The reputation closure built inside `resolveJob`:
`max(0.1, 1 + Σ PAYOUT/SLASH amounts of the agent)`. -/
def reputationOf (ledger : List LedgerEntry) (agent : String) : Rat :=
  let score :=
    ledger.foldl
      (fun score entry =>
        if entry.agentId ≠ agent then score
        else
          let score := if entry.type = LedgerEntryType.PAYOUT then score + entry.amount else score
          if entry.type = LedgerEntryType.SLASH then score + entry.amount else score)
      1
  max (1 / 10) score

/-- The timeout slash computed per bid inside `resolveJob`:
`min(calculateSlashAmount(..), stakeAmount)` with reason `"timeout"` when
slashing is enabled both globally and on the job and the bidder never
submitted, `0` otherwise. -/
def resolveSlashInfo (cfg : EngineConfig) (job : Job) (submissionAgents : List String)
    (bid : Bid) : Rat × String :=
  if cfg.slashingEnabled ∧ job.slashingPolicy.enabled ∧ bid.agentId ∉ submissionAgents then
    (min (calculateSlashAmount job cfg bid.stakeAmount) bid.stakeAmount, "timeout")
  else (0, "")

/-- The even reward split over the resolver's winners
(`reward / winners.length`, no payouts when there are no winners). -/
def resolvePayouts (job : Job) (winners : List String) : List Payout :=
  if winners.isEmpty then []
  else winners.map (fun winner => { agentId := winner, amount := job.reward / (winners.length : Rat) })

/-- The mutator of `JobEngine.resolveJob` (`src/jobs/engine.ts:350-483`). -/
def JobEngine.resolveJobMutator (cfg : EngineConfig) (agentId jobId : String)
    (input : ResolveInput) (now : Nat) (s : StorageState) :
    Except String (StorageState × Resolution) :=
  match s.jobs.find? (fun j => decide (j.id = jobId)) with
  | none => Except.error ("Job not found: " ++ jobId)
  | some job =>
    if job.status = JobStatus.RESOLVED then
      Except.error "Job already resolved"
    else if job.consensusPolicy.type = ConsensusPolicyType.TRUSTED_ARBITER ∧
        strTruthy job.consensusPolicy.trustedArbiterAgentId ∧
        job.consensusPolicy.trustedArbiterAgentId.getD "" ≠ agentId then
      Except.error "Only the trusted arbiter can resolve this job"
    else if job.consensusPolicy.type = ConsensusPolicyType.OWNER_PICK ∧
        job.createdByAgentId ≠ agentId then
      Except.error "Only the job creator can resolve this job"
    else
      let submissions := s.submissions.filter (fun sb => decide (sb.jobId = jobId))
      let votes := s.votes.filter (fun v => decide (v.jobId = jobId))
      let bids := s.bids.filter (fun b => decide (b.jobId = jobId))
      let consensus := resolveConsensus
        { job := job, submissions := submissions, votes := votes,
          reputation := reputationOf s.ledger,
          manualWinnerAgentIds := input.manualWinners,
          manualSubmissionId := input.manualSubmissionId }
      let payouts : List Payout := resolvePayouts job consensus.winners
      let submissionAgents := submissions.map (fun sb => sb.agentId)
      let slashes : List SlashRecord :=
        bids.filterMap (fun bid =>
          let info := resolveSlashInfo cfg job submissionAgents bid
          if 0 < info.1 then
            some { agentId := bid.agentId, amount := info.1, reason := info.2 }
          else none)
      -- both branches of the per-bid conditional push the same UNSTAKE entry
      -- whenever the bid's stake is positive
      let unstakeEntries : List LedgerEntry :=
        bids.filterMap (fun bid =>
          if 0 < bid.stakeAmount then
            some { atTime := now, type := LedgerEntryType.UNSTAKE, agentId := bid.agentId,
                   amount := bid.stakeAmount, jobId := some jobId }
          else none)
      let payoutEntries : List LedgerEntry :=
        payouts.map (fun p =>
          { atTime := now, type := LedgerEntryType.PAYOUT, agentId := p.agentId,
            amount := p.amount, jobId := some jobId })
      let slashEntries : List LedgerEntry :=
        slashes.map (fun sl =>
          { atTime := now, type := LedgerEntryType.SLASH, agentId := sl.agentId,
            amount := -|sl.amount|, jobId := some jobId, reason := some sl.reason })
      let resolution : Resolution :=
        { jobId := jobId, resolvedAt := now, winners := consensus.winners,
          winningSubmissionIds := consensus.winningSubmissionIds, payouts := payouts,
          slashes := slashes, consensusTrace := consensus.consensusTrace,
          finalArtifact := consensus.finalArtifact,
          auditLog := ["resolved_by:" ++ agentId] }
      Except.ok
        ({ s with
            ledger := s.ledger ++ unstakeEntries ++ payoutEntries ++ slashEntries
            resolutions := s.resolutions ++ [resolution]
            jobs := replaceFirst (fun j => decide (j.id = jobId))
              (fun j => { j with status := JobStatus.RESOLVED }) s.jobs
            audit := s.audit ++
              [{ atTime := now, type := "job_resolved", jobId := some jobId,
                 actorAgentId := some agentId }] },
          resolution)

/-- `JobEngine.resolveJob` — the whole payout/slash/resolution write is a
single `storage.update` mutation. -/
def JobEngine.resolveJob (cfg : EngineConfig) (agentId jobId : String) (input : ResolveInput)
    (now : Nat) (s : StorageState) : StorageState × Except String Resolution :=
  IStorage.update s (JobEngine.resolveJobMutator cfg agentId jobId input now)

/-- `JobEngine.recordError` — push the diagnostic, evicting the oldest entry
once more than 50 are stored. -/
def JobEngine.recordError (message : String) (now : Nat) (s : StorageState) : StorageState :=
  let errors := s.errors ++ [{ atTime := now, message := message }]
  { s with errors := if 50 < errors.length then errors.tail else errors }

/-! ## The engine transition system

One step per public operation, at clock value `now`.  `postJob` carries a
freshness side condition on the generated job id, standing in for `newId`'s
uniqueness.  Each constructor's target is the state the operation persists
(on failure that is the operation's pre-state, except for `claimJob`, whose
separately committed `ensureInitialCredits` faucet survives a failing claim
update). -/

def initialState : StorageState :=
  { jobs := [], bids := [], claims := [], submissions := [], votes := [],
    resolutions := [], ledger := [], audit := [], errors := [] }

def resolutionCount (s : StorageState) (jobId : String) : Nat :=
  (s.resolutions.filter (fun r => decide (r.jobId = jobId))).length

inductive Step (cfg : EngineConfig) (now : Nat) : StorageState → StorageState → Prop
  | postJob (s : StorageState) (agentId : String) (input : JobPostInput) (jobId : String)
      (hfresh : ∀ j ∈ s.jobs, j.id ≠ jobId) :
      Step cfg now s (JobEngine.postJob agentId input jobId now s).1
  | claimJob (s : StorageState) (agentId jobId : String) (input : ClaimInput) :
      Step cfg now s (JobEngine.claimJob cfg agentId jobId input now s).1
  | heartbeat (s : StorageState) (agentId jobId : String) :
      Step cfg now s (JobEngine.heartbeat agentId jobId now s)
  | submitJob (s : StorageState) (agentId jobId subId : String) (input : SubmitInput) :
      Step cfg now s (JobEngine.submitJob agentId jobId subId input now s).1
  | vote (s : StorageState) (agentId jobId voteId : String) (input : VoteInput) :
      Step cfg now s (JobEngine.vote agentId jobId voteId input now s).1
  | resolveJob (s : StorageState) (agentId jobId : String) (input : ResolveInput) :
      Step cfg now s (JobEngine.resolveJob cfg agentId jobId input now s).1
  | applyExpiry (s : StorageState) :
      Step cfg now s (JobEngine.applyExpiry now s)
  | recordError (s : StorageState) (message : String) :
      Step cfg now s (JobEngine.recordError message now s)
  | faucet (s : StorageState) (agentId : String) (amount : Rat) (reason : String) :
      Step cfg now s (LedgerEngine.faucet cfg agentId amount reason now s).1
  | stakeOp (s : StorageState) (agentId : String) (amount : Rat) (jobId : Option String) :
      Step cfg now s (LedgerEngine.stake cfg agentId amount jobId now s).1
  | unstakeOp (s : StorageState) (agentId : String) (amount : Rat) (jobId : Option String) :
      Step cfg now s (LedgerEngine.unstake cfg agentId amount jobId now s).1
  | payoutOp (s : StorageState) (agentId : String) (amount : Rat) (jobId : Option String) :
      Step cfg now s (LedgerEngine.payout cfg agentId amount jobId now s).1
  | slashOp (s : StorageState) (agentId : String) (amount : Rat) (jobId : Option String)
      (reason : Option String) :
      Step cfg now s (LedgerEngine.slash cfg agentId amount jobId reason now s).1
  | applyConfigBalancesOp (s : StorageState) (balances : List (String × Rat))
      (mode : BalancesMode) :
      Step cfg now s (LedgerEngine.applyConfigBalances balances mode now s).1
  | ensureInitialCreditsOp (s : StorageState) (agentId : String) :
      Step cfg now s (LedgerEngine.ensureInitialCredits cfg agentId now s)

/-- States reachable from the empty document under a monotone clock
(the spec's environment provides "a monotonic wall clock"). -/
inductive ReachableAt (cfg : EngineConfig) : StorageState → Nat → Prop
  | init (t : Nat) : ReachableAt cfg initialState t
  | step {s : StorageState} {t : Nat} {s' : StorageState} {t' : Nat}
      (h : ReachableAt cfg s t) (hle : t ≤ t') (hstep : Step cfg t' s s') :
      ReachableAt cfg s' t'

/-- Tier of a status in the forward lattice
`OPEN → {IN_PROGRESS, SUBMITTED} → {RESOLVED, EXPIRED, CANCELLED}`. -/
def statusRank : JobStatus → Nat
  | JobStatus.OPEN => 0
  | JobStatus.CLOSED => 0
  | JobStatus.CLAIMED => 0
  | JobStatus.IN_PROGRESS => 1
  | JobStatus.SUBMITTED => 1
  | JobStatus.RESOLVED => 2
  | JobStatus.CANCELLED => 2
  | JobStatus.EXPIRED => 2

/-- The inductive invariant of reachable states used below. -/
structure SysInv (s : StorageState) (t : Nat) : Prop where
  nodupIds : (s.jobs.map Job.id).Nodup
  statusOk : ∀ j ∈ s.jobs,
    j.status = JobStatus.OPEN ∨ j.status = JobStatus.IN_PROGRESS ∨
      j.status = JobStatus.SUBMITTED ∨ j.status = JobStatus.RESOLVED ∨
      j.status = JobStatus.EXPIRED
  expiredPast : ∀ j ∈ s.jobs, j.status = JobStatus.EXPIRED → j.expiresAt ≤ t
  resCount : ∀ j ∈ s.jobs,
    resolutionCount s j.id = if j.status = JobStatus.RESOLVED then 1 else 0
  resHasJob : ∀ r ∈ s.resolutions, ∃ j ∈ s.jobs, j.id = r.jobId

/-! ### Operation characterization lemmas -/

/-- Jobs and resolutions untouched by an operation. -/
def SameJobsRes (s s' : StorageState) : Prop :=
  s'.jobs = s.jobs ∧ s'.resolutions = s.resolutions

/-- An `isErr`-style Boolean view of an `Except` result. -/
def exceptIsOk : Except ε α → Bool
  | Except.ok _ => true
  | Except.error _ => false

/-! ### Concrete fixtures for C3/C4 -/

def cfg0 : EngineConfig :=
  { slashingEnabled := false, initialCreditsPerAgent := 0, balances := [],
    balancesMode := some BalancesMode.initial }

def c4PostInput : JobPostInput :=
  { reward := 10, stakeRequired := 1, maxParticipants := 3,
    consensusPolicy := { type := ConsensusPolicyType.FIRST_SUBMISSION_WINS },
    slashingPolicy := { enabled := false, slashPercent := 0, slashFlat := 0 },
    expiresSeconds := 10 }

/-- `postJob` at time 0 (expiry at 10). -/
def c4Posted : StorageState :=
  (JobEngine.postJob "owner" c4PostInput "job1" 0 initialState).1

def c4job : Job := (JobEngine.postJob "owner" c4PostInput "job1" 0 initialState).2

/-- `listJobs`/`getJob` at time 20 marks the job EXPIRED. -/
def c4Expired : StorageState := JobEngine.applyExpiry 20 c4Posted

/-- `submitJob` at time 20 on the expired job. -/
def c4Submitted : StorageState :=
  (JobEngine.submitJob "a" "job1" "s1" { confidence := 1 } 20 c4Expired).1

def c4jobExpired : Job := { c4job with status := JobStatus.EXPIRED }

/-- Resolving the (submission-less) posted job at t=5 marks it RESOLVED with
an empty winner set and stores its single Resolution. -/
def c3Resolved : StorageState :=
  (JobEngine.resolveJob cfg0 "owner" "job1" {} 5 c4Posted).1

def c3job : Job := { c4job with status := JobStatus.RESOLVED }

/-- An APPROVAL_VOTE input with a configured quorum, oracle settlement and a
manual winner supplied — but no submissions. -/
def c10Job : Job :=
  { id := "job2", expiresAt := 100, createdByAgentId := "o",
    reward := 5, stakeRequired := 0, maxParticipants := 3,
    consensusPolicy :=
      { type := ConsensusPolicyType.APPROVAL_VOTE, quorum := some 1,
        approvalVote := some { settlement := some Settlement.oracle } },
    slashingPolicy := { enabled := false, slashPercent := 0, slashFlat := 0 },
    status := JobStatus.SUBMITTED }

def c10Input : ConsensusInput :=
  { job := c10Job, submissions := [], votes := [], reputation := (fun _ => 1),
    manualWinnerAgentIds := some ["x"], manualSubmissionId := some "s9" }

/-- The consensus input independently rebuilt from a stored document, as the
repository's recomputation test does. -/
def recomputeInput (s : StorageState) (jobId : String) (j : Job) (input : ResolveInput) :
    ConsensusInput :=
  { job := j,
    submissions := s.submissions.filter (fun sb => decide (sb.jobId = jobId)),
    votes := s.votes.filter (fun v => decide (v.jobId = jobId)),
    reputation := reputationOf s.ledger,
    manualWinnerAgentIds := input.manualWinners,
    manualSubmissionId := input.manualSubmissionId }

/-- The Resolution stored by resolving the submission-less `job1`. -/
def c9res : Resolution :=
  { jobId := "job1", resolvedAt := 5, winners := [], winningSubmissionIds := [],
    payouts := [], slashes := [],
    consensusTrace :=
      { policy := ConsensusPolicyType.FIRST_SUBMISSION_WINS, reason := some "no_submissions" },
    finalArtifact := none, auditLog := ["resolved_by:owner"] }

/-! ### Concrete fixtures for C7 (vote-rejection guard) -/

def c7PostInput : JobPostInput :=
  { reward := 10, stakeRequired := 0, maxParticipants := 3,
    consensusPolicy := { type := ConsensusPolicyType.FIRST_SUBMISSION_WINS },
    slashingPolicy := { enabled := false, slashPercent := 0, slashFlat := 0 },
    expiresSeconds := 100 }

def c7PostInputLegacy : JobPostInput :=
  { reward := 10, stakeRequired := 0, maxParticipants := 3,
    consensusPolicy := { type := ConsensusPolicyType.SINGLE_WINNER },
    slashingPolicy := { enabled := false, slashPercent := 0, slashFlat := 0 },
    expiresSeconds := 100 }

/-- FIRST_SUBMISSION_WINS job with one submission. -/
def c7State : StorageState :=
  (JobEngine.submitJob "a" "job7" "s7" { confidence := 1 } 1
    (JobEngine.postJob "owner" c7PostInput "job7" 0 initialState).1).1

/-- Legacy-alias job (`SINGLE_WINNER`) with one submission. -/
def c7StateLegacy : StorageState :=
  (JobEngine.submitJob "a" "job8" "s8" { confidence := 1 } 1
    (JobEngine.postJob "owner" c7PostInputLegacy "job8" 0 initialState).1).1

/-! ### Concrete fixtures for C6 (oracle settlement) -/

def c6PostInput : JobPostInput :=
  { reward := 1, stakeRequired := 0, maxParticipants := 3,
    consensusPolicy :=
      { type := ConsensusPolicyType.APPROVAL_VOTE, trustedArbiterAgentId := some "arb",
        approvalVote := some { settlement := some Settlement.oracle } },
    slashingPolicy := { enabled := false, slashPercent := 0, slashFlat := 0 },
    expiresSeconds := 100 }

/-- Oracle-settlement APPROVAL_VOTE job with one submission and no votes. -/
def c6State : StorageState :=
  (JobEngine.submitJob "a" "job6" "s6" { confidence := 1 } 1
    (JobEngine.postJob "owner" c6PostInput "job6" 0 initialState).1).1

def c6res : Resolution :=
  { jobId := "job6", resolvedAt := 3, winners := [], winningSubmissionIds := [],
    payouts := [], slashes := [],
    consensusTrace :=
      { policy := ConsensusPolicyType.APPROVAL_VOTE, reason := some "no_votes",
        settlement := some Settlement.oracle },
    finalArtifact := none, auditLog := ["resolved_by:owner"] }

/-! ### Concrete fixtures for C2 (staked-settlement vote slashing) -/

/-- APPROVAL_VOTE job with `settlement = staked`, `voteSlashPercent = 0.5`. -/
def c2Job : Job :=
  { id := "job22", expiresAt := 100, createdByAgentId := "owner",
    reward := 1, stakeRequired := 0, maxParticipants := 3,
    consensusPolicy :=
      { type := ConsensusPolicyType.APPROVAL_VOTE, quorum := some 1, minScore := some 1,
        minMargin := some 0, tieBreak := some TieBreak.earliest,
        approvalVote := some
          { weightMode := some WeightMode.equal, settlement := some Settlement.staked,
            voteSlashPercent := some (1 / 2) } },
    slashingPolicy := { enabled := false, slashPercent := 0, slashFlat := 0 },
    status := JobStatus.SUBMITTED }

def c2SubLoser : Submission :=
  { id := "s1", jobId := "job22", agentId := "a", submittedAt := 1,
    artifacts := [("x", "1")], confidence := 1 }

def c2SubWinner : Submission :=
  { id := "s2", jobId := "job22", agentId := "b", submittedAt := 2,
    artifacts := [("x", "2")], confidence := 1 }

/-- The voter stakes 4 credits on the eventual losing submission. -/
def c2VoteWrong : Vote :=
  { id := "v1", jobId := "job22", submissionId := some "s1", agentId := "voter",
    score := 1, stakeAmount := some 4 }

def c2VoteWin1 : Vote :=
  { id := "v2", jobId := "job22", submissionId := some "s2", agentId := "w1", score := 1 }

def c2VoteWin2 : Vote :=
  { id := "v3", jobId := "job22", submissionId := some "s2", agentId := "w2", score := 1 }

def c2State : StorageState :=
  { jobs := [c2Job], bids := [], claims := [],
    submissions := [c2SubLoser, c2SubWinner],
    votes := [c2VoteWrong, c2VoteWin1, c2VoteWin2],
    resolutions := [], ledger := [], audit := [], errors := [] }

/-! ### Concrete fixtures for C5 -/

def c5SubA : Submission :=
  { id := "s1", jobId := "job5", agentId := "a", submittedAt := 1,
    artifacts := [("x", "1")], confidence := 1 / 2 }

def c5SubB : Submission :=
  { id := "s2", jobId := "job5", agentId := "b", submittedAt := 2,
    artifacts := [("x", "2")], confidence := 1 / 2 }

def c5VoteB : Vote :=
  { id := "v1", jobId := "job5", submissionId := some "s2", agentId := "v1", score := 1 }

/-- The claim's scenario: quorum=1, minScore=1, minMargin=0,
tieBreak=earliest, immediate settlement, one YES vote on the second
submission. -/
def c5ScnJob : Job :=
  { id := "job5", expiresAt := 1000, createdByAgentId := "owner",
    reward := 1, stakeRequired := 0, maxParticipants := 3,
    consensusPolicy :=
      { type := ConsensusPolicyType.APPROVAL_VOTE, quorum := some 1, minScore := some 1,
        minMargin := some 0, tieBreak := some TieBreak.earliest,
        approvalVote := some
          { weightMode := some WeightMode.equal, settlement := some Settlement.immediate } },
    slashingPolicy := { enabled := false, slashPercent := 0, slashFlat := 0 },
    status := JobStatus.SUBMITTED }

def c5ScnInput : ConsensusInput :=
  { job := c5ScnJob, submissions := [c5SubA, c5SubB], votes := [c5VoteB],
    reputation := (fun _ => 1) }

def c5ScnBest : RankedSub := { sub := c5SubB, score := 1, votes := 1 }

def c5ScnRest : RankedSub := { sub := c5SubA, score := 0, votes := 0 }

/-- The same scenario with `tieBreak = arbiter` (settlement still
immediate). -/
def c5CexJob : Job :=
  { id := "job5", expiresAt := 1000, createdByAgentId := "owner",
    reward := 1, stakeRequired := 0, maxParticipants := 3,
    consensusPolicy :=
      { type := ConsensusPolicyType.APPROVAL_VOTE, quorum := some 1, minScore := some 1,
        minMargin := some 0, tieBreak := some TieBreak.arbiter,
        approvalVote := some
          { weightMode := some WeightMode.equal, settlement := some Settlement.immediate } },
    slashingPolicy := { enabled := false, slashPercent := 0, slashFlat := 0 },
    status := JobStatus.SUBMITTED }

def c5CexInput : ConsensusInput :=
  { job := c5CexJob, submissions := [c5SubA, c5SubB], votes := [c5VoteB],
    reputation := (fun _ => 1) }

/-! ### Ledger balance lemmas (C1) -/

/-- Every agent's ledger-derived balance is non-negative. -/
def AllBalancesNonneg (s : StorageState) : Prop :=
  ∀ a : String, 0 ≤ getBalance s.ledger a

/-- C1 fixture: a FIRST_SUBMISSION_WINS job with a negative reward and one
submission.  `resolveJob` runs no balance check on the entries it appends. -/
def c1CexJob : Job :=
  { id := "jc1", expiresAt := 1000, createdByAgentId := "o", reward := -10,
    stakeRequired := 0, maxParticipants := 3,
    consensusPolicy := { type := ConsensusPolicyType.FIRST_SUBMISSION_WINS },
    slashingPolicy := { enabled := false, slashPercent := 0, slashFlat := 0 },
    status := JobStatus.SUBMITTED }

def c1CexSub : Submission :=
  { id := "s1", jobId := "jc1", agentId := "a", submittedAt := 5,
    artifacts := [], confidence := 1 }

def c1CexState : StorageState :=
  { jobs := [c1CexJob], bids := [], claims := [], submissions := [c1CexSub],
    votes := [], resolutions := [], ledger := [], audit := [], errors := [] }

theorem lexLe_total (k t : α → Rat) : ∀ a b, lexLe k t a b ∨ lexLe k t b a := by
  intro a b
  unfold lexLe
  by_cases h : k a = k b
  · simp [h, le_total]
  · have h' : ¬ k b = k a := fun hba => h hba.symm
    simp [h, h']
    exact le_total (k b) (k a)

theorem lexLe_trans (k t : α → Rat) :
    ∀ a b c, lexLe k t a b → lexLe k t b c → lexLe k t a c := by
  intro a b c hab hbc
  unfold lexLe at hab hbc ⊢
  by_cases hab' : k a = k b <;> by_cases hbc' : k b = k c
  · rw [if_pos hab'] at hab
    rw [if_pos hbc'] at hbc
    rw [if_pos (hab'.trans hbc')]
    exact le_trans hab hbc
  · rw [if_pos hab'] at hab
    rw [if_neg hbc'] at hbc
    rw [if_neg (fun h : k a = k c => hbc' (hab' ▸ h))]
    exact hab' ▸ hbc
  · rw [if_neg hab'] at hab
    rw [if_pos hbc'] at hbc
    rw [if_neg (fun h : k a = k c => hab' (h.trans hbc'.symm))]
    exact hbc' ▸ hab
  · rw [if_neg hab'] at hab
    rw [if_neg hbc'] at hbc
    by_cases hac : k a = k c
    · exact absurd (le_antisymm (hac ▸ hbc) hab) hab'
    · rw [if_neg hac]
      exact le_trans hbc hab

theorem rankBy_perm (k t : α → Rat) (l : List α) : (rankBy k t l).Perm l :=
  List.perm_insertionSort _ l

theorem rankBy_sorted (k t : α → Rat) (l : List α) :
    (rankBy k t l).Sorted (lexLe k t) := by
  haveI : IsTotal α (lexLe k t) := ⟨lexLe_total k t⟩
  haveI : IsTrans α (lexLe k t) := ⟨lexLe_trans k t⟩
  exact List.sorted_insertionSort _ l

/-- The head of a ranking has the maximal primary key. -/
theorem rankBy_head_key_max (k t : α → Rat) (l : List α) (x : α) (xs : List α)
    (hx : rankBy k t l = x :: xs) : ∀ y ∈ l, k y ≤ k x := by
  intro y hy
  have hperm := rankBy_perm k t l
  have hy' : y ∈ rankBy k t l := hperm.mem_iff.mpr hy
  rw [hx] at hy'
  rcases hy' with _ | hy''
  · exact le_refl _
  · have hs := rankBy_sorted k t l
    rw [hx] at hs
    have hrel := (List.sorted_cons.mp hs).1 y (by assumption)
    unfold lexLe at hrel
    by_cases hk : k x = k y
    · exact hk.ge
    · simpa [hk] using hrel

/-! ### List helper lemmas -/

theorem replaceFirst_map_eq {p : α → Bool} {f : α → α} (g : α → β)
    (hg : ∀ x, g (f x) = g x) : ∀ l : List α, (replaceFirst p f l).map g = l.map g := by
  intro l
  induction l with
  | nil => rfl
  | cons x xs ih =>
    by_cases hx : p x
    · simp [replaceFirst, hx, hg]
    · simp [replaceFirst, hx, ih]

theorem mem_replaceFirst {p : α → Bool} {f : α → α} {l : List α} {y : α}
    (hy : y ∈ replaceFirst p f l) : y ∈ l ∨ ∃ x, l.find? p = some x ∧ x ∈ l ∧ y = f x := by
  induction l with
  | nil => simp [replaceFirst] at hy
  | cons x xs ih =>
    by_cases hx : p x
    · simp [replaceFirst, hx] at hy
      rcases hy with hy | hy
      · exact Or.inr ⟨x, by simp [List.find?_cons_of_pos, hx], List.mem_cons_self x xs, hy⟩
      · exact Or.inl (List.mem_cons_of_mem x hy)
    · simp [replaceFirst, hx] at hy
      rcases hy with hy | hy
      · exact Or.inl (hy ▸ List.mem_cons_self x xs)
      · rcases ih hy with h | ⟨z, hz, hzmem, hyz⟩
        · exact Or.inl (List.mem_cons_of_mem x h)
        · exact Or.inr ⟨z, by simp [List.find?_cons_of_neg, hx, hz],
            List.mem_cons_of_mem x hzmem, hyz⟩

theorem replaceFirst_mem_of_find? {p : α → Bool} {f : α → α} {l : List α} {x : α}
    (hx : l.find? p = some x) : f x ∈ replaceFirst p f l := by
  induction l with
  | nil => cases hx
  | cons y ys ih =>
    by_cases hy : p y
    · rw [List.find?_cons_of_pos _ hy] at hx
      cases hx
      simp [replaceFirst, hy]
    · rw [List.find?_cons_of_neg _ hy] at hx
      simp [replaceFirst, hy]
      exact Or.inr (ih hx)

theorem find?_replaceFirst_self {p : α → Bool} {f : α → α} {l : List α}
    (hpf : ∀ x, p x = true → p (f x) = true) :
    (replaceFirst p f l).find? p = (l.find? p).map f := by
  induction l with
  | nil => rfl
  | cons x xs ih =>
    by_cases hx : p x
    · simp [replaceFirst, hx, List.find?_cons_of_pos, hpf x hx]
    · simp [replaceFirst, hx, List.find?_cons_of_neg, ih]

theorem find?_replaceFirst_other {p q : α → Bool} {f : α → α} {l : List α}
    (hq : ∀ x, p x = true → q x = false) (hqf : ∀ x, p x = true → q (f x) = false) :
    (replaceFirst p f l).find? q = l.find? q := by
  induction l with
  | nil => rfl
  | cons x xs ih =>
    by_cases hx : p x
    · simp [replaceFirst, hx, List.find?_cons_of_neg, hq x hx, hqf x hx]
    · by_cases hqx : q x
      · simp [replaceFirst, hx, List.find?_cons_of_pos, hqx]
      · simp [replaceFirst, hx, List.find?_cons_of_neg, hqx, ih]

theorem find?_eq_some_mem {p : α → Bool} {l : List α} {x : α}
    (h : l.find? p = some x) : x ∈ l ∧ p x = true :=
  ⟨List.mem_of_find?_eq_some h, List.find?_some h⟩

theorem sameJobsRes_refl (s : StorageState) : SameJobsRes s s :=
  ⟨rfl, rfl⟩

theorem sameJobsRes_trans {s₁ s₂ s₃ : StorageState}
    (h₁ : SameJobsRes s₁ s₂) (h₂ : SameJobsRes s₂ s₃) : SameJobsRes s₁ s₃ :=
  ⟨h₂.1.trans h₁.1, h₂.2.trans h₁.2⟩

theorem ensureInitialCredits_sameJobsRes (cfg : EngineConfig) (agentId : String) (now : Nat)
    (s : StorageState) : SameJobsRes s (LedgerEngine.ensureInitialCredits cfg agentId now s) := by
  unfold LedgerEngine.ensureInitialCredits IStorage.update
  split
  · exact sameJobsRes_refl s
  · dsimp only
    by_cases hb : 0 < getBalance s.ledger agentId
    · simp only [if_pos hb]
      exact sameJobsRes_refl s
    · simp only [if_neg hb]
      exact ⟨rfl, rfl⟩

theorem applyConfigBalancesStep_sameJobsRes {mode : BalancesMode} {now : Nat}
    {st st' : StorageState} {p : String × Rat}
    (h : applyConfigBalancesStep mode now st p = Except.ok st') : SameJobsRes st st' := by
  unfold applyConfigBalancesStep at h
  dsimp only at h
  split at h
  · cases h
    exact sameJobsRes_refl st
  · split at h
    · cases h
      exact sameJobsRes_refl st
    · split at h
      · cases h
      · cases h
        exact ⟨rfl, rfl⟩

theorem configBalancesFold_sameJobsRes {mode : BalancesMode} {now : Nat} :
    ∀ (balances : List (String × Rat)) (s s' : StorageState),
      configBalancesFold mode now balances s = Except.ok s' → SameJobsRes s s' := by
  intro balances
  induction balances with
  | nil =>
    intro s s' h
    unfold configBalancesFold at h
    cases h
    exact sameJobsRes_refl s
  | cons p rest ih =>
    intro s s' h
    unfold configBalancesFold at h
    cases hstep : applyConfigBalancesStep mode now s p with
    | error e =>
      rw [hstep] at h
      cases h
    | ok st =>
      rw [hstep] at h
      exact sameJobsRes_trans (applyConfigBalancesStep_sameJobsRes hstep) (ih st s' h)

theorem applyConfigBalances_sameJobsRes (balances : List (String × Rat)) (mode : BalancesMode)
    (now : Nat) (s : StorageState) :
    SameJobsRes s (LedgerEngine.applyConfigBalances balances mode now s).1 := by
  unfold LedgerEngine.applyConfigBalances
  split
  · exact sameJobsRes_refl s
  · unfold IStorage.update applyConfigBalancesMutator
    cases hf : configBalancesFold mode now balances s with
    | error e => exact sameJobsRes_refl s
    | ok s' => exact configBalancesFold_sameJobsRes balances s s' hf

theorem appendEntryMutator_sameJobsRes {entry : LedgerEntry} {st st' : StorageState}
    {v : LedgerEntry} (h : appendEntryMutator entry st = Except.ok (st', v)) :
    SameJobsRes st st' := by
  unfold appendEntryMutator at h
  dsimp only at h
  split at h
  · cases h
  · cases h
    exact ⟨rfl, rfl⟩

theorem appendEntry_sameJobsRes (cfg : EngineConfig) (entry : LedgerEntry) (s : StorageState) :
    SameJobsRes s (LedgerEngine.appendEntry cfg entry s).1 := by
  unfold LedgerEngine.appendEntry IStorage.update
  cases h : appendEntryMutator entry s with
  | error e => exact sameJobsRes_refl s
  | ok v =>
    obtain ⟨s₁, e₁⟩ := v
    have hshape := appendEntryMutator_sameJobsRes h
    dsimp only
    split
    · have h2 := applyConfigBalances_sameJobsRes cfg.balances BalancesMode.override 0 s₁
      cases hr : (LedgerEngine.applyConfigBalances cfg.balances BalancesMode.override 0 s₁).2 with
      | error e => simpa [hr] using sameJobsRes_trans hshape h2
      | ok u => simpa [hr] using sameJobsRes_trans hshape h2
    · exact hshape

theorem heartbeat_sameJobsRes (agentId jobId : String) (now : Nat) (s : StorageState) :
    SameJobsRes s (JobEngine.heartbeat agentId jobId now s) :=
  ⟨rfl, rfl⟩

theorem recordError_sameJobsRes (message : String) (now : Nat) (s : StorageState) :
    SameJobsRes s (JobEngine.recordError message now s) :=
  ⟨rfl, rfl⟩

theorem vote_sameJobsRes (agentId jobId voteId : String) (input : VoteInput) (now : Nat)
    (s : StorageState) : SameJobsRes s (JobEngine.vote agentId jobId voteId input now s).1 := by
  unfold JobEngine.vote IStorage.update
  cases h : JobEngine.voteMutator agentId jobId voteId input now s with
  | error e => exact sameJobsRes_refl s
  | ok v =>
    obtain ⟨s', vt⟩ := v
    unfold JobEngine.voteMutator at h
    split at h
    · cases h
    · split at h
      · cases h
      · split at h
        · cases h
        · cases h
          exact ⟨rfl, rfl⟩

theorem postJob_char (agentId : String) (input : JobPostInput) (jobId : String) (now : Nat)
    (s : StorageState) :
    (JobEngine.postJob agentId input jobId now s).1.jobs
        = s.jobs ++ [(JobEngine.postJob agentId input jobId now s).2] ∧
      (JobEngine.postJob agentId input jobId now s).1.resolutions = s.resolutions ∧
      (JobEngine.postJob agentId input jobId now s).2.id = jobId ∧
      (JobEngine.postJob agentId input jobId now s).2.status = JobStatus.OPEN :=
  ⟨rfl, rfl, rfl, rfl⟩

theorem claimJob_char (cfg : EngineConfig) (agentId jobId : String) (input : ClaimInput)
    (now : Nat) (s : StorageState) :
    SameJobsRes s (JobEngine.claimJob cfg agentId jobId input now s).1 ∨
      (∃ j, s.jobs.find? (fun x => decide (x.id = jobId)) = some j ∧
        j.status ≠ JobStatus.RESOLVED ∧ j.status ≠ JobStatus.CANCELLED ∧
        ¬ j.expiresAt ≤ now ∧
        (JobEngine.claimJob cfg agentId jobId input now s).1.jobs =
          replaceFirst (fun x => decide (x.id = jobId))
            (fun x => { x with status := JobStatus.IN_PROGRESS }) s.jobs ∧
        (JobEngine.claimJob cfg agentId jobId input now s).1.resolutions = s.resolutions) := by
  unfold JobEngine.claimJob IStorage.update
  dsimp only
  have h₀ := ensureInitialCredits_sameJobsRes cfg agentId now s
  cases h : JobEngine.claimJobMutator agentId jobId input now
      (LedgerEngine.ensureInitialCredits cfg agentId now s) with
  | error e =>
    exact Or.inl h₀
  | ok v =>
    obtain ⟨s', a⟩ := v
    unfold JobEngine.claimJobMutator at h
    cases hfind : (LedgerEngine.ensureInitialCredits cfg agentId now s).jobs.find?
        (fun x => decide (x.id = jobId)) with
    | none =>
      rw [hfind] at h
      cases h
    | some j =>
      rw [hfind] at h
      dsimp only at h
      repeat' split at h
      all_goals try exact Except.noConfusion h
      cases h
      rename_i hst hexp hexist hfull x u hens
      refine Or.inr ⟨j, ?_, ?_, ?_, ?_, ?_, ?_⟩
      · exact h₀.1 ▸ hfind
      · exact fun hr => hst (Or.inl hr)
      · exact fun hr => hst (Or.inr hr)
      · simpa [isPast] using hexp
      · dsimp only
        rw [h₀.1]
      · dsimp only
        exact h₀.2

theorem submitJob_char (agentId jobId subId : String) (input : SubmitInput) (now : Nat)
    (s : StorageState) :
    SameJobsRes s (JobEngine.submitJob agentId jobId subId input now s).1 ∨
      (∃ j, s.jobs.find? (fun x => decide (x.id = jobId)) = some j ∧
        j.status ≠ JobStatus.RESOLVED ∧ j.status ≠ JobStatus.CANCELLED ∧
        (JobEngine.submitJob agentId jobId subId input now s).1.jobs =
          replaceFirst (fun x => decide (x.id = jobId))
            (fun x => { x with status := JobStatus.SUBMITTED }) s.jobs ∧
        (JobEngine.submitJob agentId jobId subId input now s).1.resolutions = s.resolutions) := by
  unfold JobEngine.submitJob IStorage.update
  cases h : JobEngine.submitJobMutator agentId jobId subId input now s with
  | error e => exact Or.inl (sameJobsRes_refl s)
  | ok v =>
    obtain ⟨s', sub⟩ := v
    unfold JobEngine.submitJobMutator at h
    cases hfind : s.jobs.find? (fun x => decide (x.id = jobId)) with
    | none =>
      rw [hfind] at h
      cases h
    | some j =>
      rw [hfind] at h
      dsimp only at h
      repeat' split at h
      all_goals try exact Except.noConfusion h
      cases h
      rename_i hst
      exact Or.inr ⟨j, rfl, fun hr => hst (Or.inl hr), fun hr => hst (Or.inr hr), rfl, rfl⟩

theorem resolveJob_char (cfg : EngineConfig) (agentId jobId : String) (input : ResolveInput)
    (now : Nat) (s : StorageState) :
    (JobEngine.resolveJob cfg agentId jobId input now s).1 = s ∨
      (∃ j, s.jobs.find? (fun x => decide (x.id = jobId)) = some j ∧
        j.status ≠ JobStatus.RESOLVED ∧
        (JobEngine.resolveJob cfg agentId jobId input now s).1.jobs =
          replaceFirst (fun x => decide (x.id = jobId))
            (fun x => { x with status := JobStatus.RESOLVED }) s.jobs ∧
        ∃ res, (JobEngine.resolveJob cfg agentId jobId input now s).1.resolutions
            = s.resolutions ++ [res] ∧ res.jobId = jobId ∧
          (JobEngine.resolveJob cfg agentId jobId input now s).2 = Except.ok res) := by
  unfold JobEngine.resolveJob IStorage.update
  cases h : JobEngine.resolveJobMutator cfg agentId jobId input now s with
  | error e => exact Or.inl rfl
  | ok v =>
    obtain ⟨s', res⟩ := v
    unfold JobEngine.resolveJobMutator at h
    cases hfind : s.jobs.find? (fun x => decide (x.id = jobId)) with
    | none =>
      rw [hfind] at h
      cases h
    | some j =>
      rw [hfind] at h
      dsimp only at h
      repeat' split at h
      all_goals try exact Except.noConfusion h
      cases h
      rename_i hst hnotarb hnotown
      exact Or.inr ⟨j, rfl, hst, rfl, _, rfl, rfl, rfl⟩

/-! ### Invariant preservation -/

theorem resolutionCount_congr {s s' : StorageState} (h : s'.resolutions = s.resolutions)
    (jobId : String) : resolutionCount s' jobId = resolutionCount s jobId := by
  unfold resolutionCount
  rw [h]

theorem resolutionCount_append {s s' : StorageState} {res : Resolution}
    (h : s'.resolutions = s.resolutions ++ [res]) (jobId : String) :
    resolutionCount s' jobId =
      resolutionCount s jobId + (if res.jobId = jobId then 1 else 0) := by
  unfold resolutionCount
  rw [h, List.filter_append]
  by_cases hr : res.jobId = jobId
  · simp [hr]
  · simp [hr]

theorem jobs_id_unique {l : List Job} (h : (l.map Job.id).Nodup) {a b : Job}
    (ha : a ∈ l) (hb : b ∈ l) (hid : a.id = b.id) : a = b :=
  List.inj_on_of_nodup_map h ha hb hid

theorem sysInv_sameJobsRes {s s' : StorageState} {t now : Nat}
    (hinv : SysInv s t) (hle : t ≤ now) (hsame : SameJobsRes s s') : SysInv s' now := by
  obtain ⟨hj, hres⟩ := hsame
  refine ⟨?_, ?_, ?_, ?_, ?_⟩
  · rw [hj]
    exact hinv.nodupIds
  · rw [hj]
    exact hinv.statusOk
  · rw [hj]
    intro j hmem hexp
    exact le_trans (hinv.expiredPast j hmem hexp) hle
  · rw [hj]
    intro j hmem
    rw [resolutionCount_congr hres]
    exact hinv.resCount j hmem
  · rw [hj, hres]
    exact hinv.resHasJob

/-- The job list produced by a status-only `replaceFirst` keeps ids, hence
membership of each id. -/
theorem replaceFirst_status_map_id (jobId : String) (st : JobStatus) (l : List Job) :
    (replaceFirst (fun x => decide (x.id = jobId))
        (fun x => { x with status := st }) l).map Job.id = l.map Job.id :=
  replaceFirst_map_eq (p := fun x => decide (x.id = jobId))
    (f := fun x => { x with status := st }) Job.id (fun _ => rfl) l

/-- Invariant preservation for a `replaceFirst` status update at the first
job matching `jobId`, given facts about the replaced job's old status and
the new status. -/
theorem sysInv_replaceFirst {s s' : StorageState} {t now : Nat} {jobId : String}
    {j : Job} {st : JobStatus}
    (hinv : SysInv s t) (hle : t ≤ now)
    (hfind : s.jobs.find? (fun x => decide (x.id = jobId)) = some j)
    (hjobs : s'.jobs = replaceFirst (fun x => decide (x.id = jobId))
      (fun x => { x with status := st }) s.jobs)
    (hres : s'.resolutions = s.resolutions)
    (hstOk : st = JobStatus.IN_PROGRESS ∨ st = JobStatus.SUBMITTED)
    (hjst : j.status ≠ JobStatus.RESOLVED) : SysInv s' now := by
  have hmemj : j ∈ s.jobs := (find?_eq_some_mem hfind).1
  refine ⟨?_, ?_, ?_, ?_, ?_⟩
  · rw [hjobs, replaceFirst_status_map_id]
    exact hinv.nodupIds
  · rw [hjobs]
    intro j' hmem
    rcases mem_replaceFirst hmem with hold | ⟨x, hx, hxmem, hj'⟩
    · exact hinv.statusOk j' hold
    · rcases hstOk with h | h <;> simp [hj', h]
  · rw [hjobs]
    intro j' hmem hexp
    rcases mem_replaceFirst hmem with hold | ⟨x, hx, hxmem, hj'⟩
    · exact le_trans (hinv.expiredPast j' hold hexp) hle
    · rw [hj'] at hexp
      simp at hexp
      rcases hstOk with h | h <;> simp [h] at hexp
  · rw [hjobs]
    intro j' hmem
    rw [resolutionCount_congr hres]
    rcases mem_replaceFirst hmem with hold | ⟨x, hx, hxmem, hj'⟩
    · exact hinv.resCount j' hold
    · rw [hfind] at hx
      cases hx
      have hcount := hinv.resCount j hmemj
      rw [if_neg hjst] at hcount
      have : j'.id = j.id := by rw [hj']
      rw [this]
      have hj'st : j'.status ≠ JobStatus.RESOLVED := by
        rcases hstOk with h | h <;> simp [hj', h]
      rw [if_neg hj'st]
      exact hcount
  · rw [hjobs, hres]
    intro r hr
    obtain ⟨jr, hjr, hid⟩ := hinv.resHasJob r hr
    have : jr.id ∈ (replaceFirst (fun x => decide (x.id = jobId))
        (fun x => { x with status := st }) s.jobs).map Job.id := by
      rw [replaceFirst_status_map_id]
      exact List.mem_map_of_mem Job.id hjr
    obtain ⟨j'', hj''mem, hj''id⟩ := List.mem_map.mp this
    exact ⟨j'', hj''mem, hj''id.trans hid⟩

/-- Membership in a status-`replaceFirst` job list, sharpened using
distinctness of job ids: survivors keep an id different from the target. -/
theorem mem_replaceFirst_nodupIds {l : List Job} (hnd : (l.map Job.id).Nodup)
    {jobId : String} {st : JobStatus} {y : Job}
    (hy : y ∈ replaceFirst (fun x => decide (x.id = jobId))
      (fun x => { x with status := st }) l) :
    (y ∈ l ∧ y.id ≠ jobId) ∨
      ∃ x, l.find? (fun x => decide (x.id = jobId)) = some x ∧
        y = { x with status := st } := by
  induction l with
  | nil => cases hy
  | cons z zs ih =>
    have hnd' : (zs.map Job.id).Nodup := (List.nodup_cons.mp hnd).2
    have hznotin : z.id ∉ zs.map Job.id := (List.nodup_cons.mp hnd).1
    by_cases hz : z.id = jobId
    · rw [show replaceFirst (fun x => decide (x.id = jobId))
          (fun x => { x with status := st }) (z :: zs)
          = { z with status := st } :: zs by simp [replaceFirst, hz]] at hy
      rcases List.mem_cons.mp hy with hy | hy
      · exact Or.inr ⟨z, by simp [List.find?_cons_of_pos, hz], hy⟩
      · refine Or.inl ⟨List.mem_cons_of_mem z hy, ?_⟩
        intro hid
        exact hznotin (hz ▸ hid ▸ List.mem_map_of_mem Job.id hy)
    · rw [show replaceFirst (fun x => decide (x.id = jobId))
          (fun x => { x with status := st }) (z :: zs)
          = z :: replaceFirst (fun x => decide (x.id = jobId))
              (fun x => { x with status := st }) zs by simp [replaceFirst, hz]] at hy
      rcases List.mem_cons.mp hy with hy | hy
      · exact Or.inl ⟨hy ▸ List.mem_cons_self z zs, hy ▸ hz⟩
      · rcases ih hnd' hy with ⟨hmem, hid⟩ | ⟨x, hx, hyx⟩
        · exact Or.inl ⟨List.mem_cons_of_mem z hmem, hid⟩
        · exact Or.inr ⟨x, by simp [List.find?_cons_of_neg, hz, hx], hyx⟩

/-- Invariant preservation across a successful `resolveJob`. -/
theorem sysInv_resolveStep {s s' : StorageState} {t now : Nat} {jobId : String}
    {j : Job} {res : Resolution}
    (hinv : SysInv s t) (hle : t ≤ now)
    (hfind : s.jobs.find? (fun x => decide (x.id = jobId)) = some j)
    (hjobs : s'.jobs = replaceFirst (fun x => decide (x.id = jobId))
      (fun x => { x with status := JobStatus.RESOLVED }) s.jobs)
    (hres : s'.resolutions = s.resolutions ++ [res]) (hresid : res.jobId = jobId)
    (hjst : j.status ≠ JobStatus.RESOLVED) : SysInv s' now := by
  have hmemj : j ∈ s.jobs := (find?_eq_some_mem hfind).1
  have hjid : j.id = jobId := by
    have := (find?_eq_some_mem hfind).2
    simpa using this
  refine ⟨?_, ?_, ?_, ?_, ?_⟩
  · rw [hjobs, replaceFirst_status_map_id]
    exact hinv.nodupIds
  · rw [hjobs]
    intro j' hmem
    rcases mem_replaceFirst hmem with hold | ⟨x, hx, hxmem, hj'⟩
    · exact hinv.statusOk j' hold
    · simp [hj']
  · rw [hjobs]
    intro j' hmem hexp
    rcases mem_replaceFirst hmem with hold | ⟨x, hx, hxmem, hj'⟩
    · exact le_trans (hinv.expiredPast j' hold hexp) hle
    · rw [hj'] at hexp
      simp at hexp
  · rw [hjobs]
    intro j' hmem
    rw [resolutionCount_append hres]
    rcases mem_replaceFirst_nodupIds hinv.nodupIds hmem with ⟨hold, hid⟩ | ⟨x, hx, hj'⟩
    · rw [if_neg (by rw [hresid]; exact fun h => hid h.symm), Nat.add_zero]
      exact hinv.resCount j' hold
    · rw [hfind] at hx
      cases hx
      have hj'id : j'.id = jobId := by rw [hj']; exact hjid
      rw [if_pos (hresid.trans hj'id.symm)]
      have hcount := hinv.resCount j hmemj
      rw [if_neg hjst] at hcount
      rw [hj'id, ← hjid, hcount]
      have : j'.status = JobStatus.RESOLVED := by rw [hj']
      rw [if_pos this]
  · rw [hjobs, hres]
    intro r hr
    rcases List.mem_append.mp hr with hr | hr
    · obtain ⟨jr, hjr, hid⟩ := hinv.resHasJob r hr
      have : jr.id ∈ (replaceFirst (fun x => decide (x.id = jobId))
          (fun x => { x with status := JobStatus.RESOLVED }) s.jobs).map Job.id := by
        rw [replaceFirst_status_map_id]
        exact List.mem_map_of_mem Job.id hjr
      obtain ⟨j'', hj''mem, hj''id⟩ := List.mem_map.mp this
      exact ⟨j'', hj''mem, hj''id.trans hid⟩
    · rw [List.mem_singleton.mp hr]
      exact ⟨{ j with status := JobStatus.RESOLVED },
        replaceFirst_mem_of_find? hfind, by simpa using hjid.trans hresid.symm⟩

/-- Invariant preservation across the lazy expiry marking. -/
theorem sysInv_applyExpiry {s : StorageState} {t now : Nat}
    (hinv : SysInv s t) (hle : t ≤ now) : SysInv (JobEngine.applyExpiry now s) now := by
  have hid : ∀ j : Job,
      (if (j.status = JobStatus.OPEN ∨ j.status = JobStatus.IN_PROGRESS ∨
            j.status = JobStatus.SUBMITTED) ∧ isPast j.expiresAt now then
        { j with status := JobStatus.EXPIRED } else j).id = j.id := by
    intro j
    split <;> rfl
  refine ⟨?_, ?_, ?_, ?_, ?_⟩
  · show ((s.jobs.map _).map Job.id).Nodup
    rw [List.map_map]
    have : (Job.id ∘ fun job =>
        if (job.status = JobStatus.OPEN ∨ job.status = JobStatus.IN_PROGRESS ∨
              job.status = JobStatus.SUBMITTED) ∧ isPast job.expiresAt now then
          { job with status := JobStatus.EXPIRED } else job) = Job.id := by
      funext j
      exact hid j
    rw [this]
    exact hinv.nodupIds
  · intro j' hmem
    obtain ⟨j, hj, hj'⟩ := List.mem_map.mp hmem
    rw [← hj']
    split
    · simp
    · exact hinv.statusOk j hj
  · intro j' hmem hexp
    obtain ⟨j, hj, hj'⟩ := List.mem_map.mp hmem
    have hexpAt : j'.expiresAt = j.expiresAt := by
      rw [← hj']
      split <;> rfl
    rw [hexpAt]
    rw [← hj'] at hexp
    split at hexp
    · rename_i hcond
      simpa [isPast] using hcond.2
    · exact le_trans (hinv.expiredPast j hj hexp) hle
  · intro j' hmem
    obtain ⟨j, hj, hj'⟩ := List.mem_map.mp hmem
    have hcnt : resolutionCount (JobEngine.applyExpiry now s) j'.id = resolutionCount s j'.id :=
      resolutionCount_congr rfl j'.id
    rw [hcnt, ← hj', hid j]
    have := hinv.resCount j hj
    split
    · rename_i hcond
      have hne : j.status ≠ JobStatus.RESOLVED := by
        rcases hcond.1 with h | h | h <;> simp [h]
      simp only
      rw [if_neg hne] at this
      rw [this]
      simp
    · exact this
  · intro r hr
    obtain ⟨jr, hjr, hidr⟩ := hinv.resHasJob r hr
    refine ⟨(fun job =>
        if (job.status = JobStatus.OPEN ∨ job.status = JobStatus.IN_PROGRESS ∨
              job.status = JobStatus.SUBMITTED) ∧ isPast job.expiresAt now then
          { job with status := JobStatus.EXPIRED } else job) jr,
      List.mem_map_of_mem _ hjr, ?_⟩
    rw [hid jr]
    exact hidr

/-- Invariant preservation across `postJob` with a fresh job id. -/
theorem sysInv_postJob {s : StorageState} {t now : Nat} {agentId : String}
    {input : JobPostInput} {jobId : String}
    (hinv : SysInv s t) (hle : t ≤ now) (hfresh : ∀ j ∈ s.jobs, j.id ≠ jobId) :
    SysInv (JobEngine.postJob agentId input jobId now s).1 now := by
  obtain ⟨hjobs, hres, hjid, hjst⟩ := postJob_char agentId input jobId now s
  set newJob := (JobEngine.postJob agentId input jobId now s).2 with hnew
  refine ⟨?_, ?_, ?_, ?_, ?_⟩
  · rw [hjobs, List.map_append]
    simp only [List.map_cons, List.map_nil]
    rw [List.nodup_append]
    refine ⟨hinv.nodupIds, List.nodup_singleton _, ?_⟩
    intro a ha hb
    obtain ⟨j, hj, hji⟩ := List.mem_map.mp ha
    simp only [List.mem_singleton] at hb
    exact hfresh j hj (by rw [hji, hb]; exact hjid)
  · rw [hjobs]
    intro j' hmem
    rcases List.mem_append.mp hmem with h | h
    · exact hinv.statusOk j' h
    · rw [List.mem_singleton.mp h]
      exact Or.inl hjst
  · rw [hjobs]
    intro j' hmem hexp
    rcases List.mem_append.mp hmem with h | h
    · exact le_trans (hinv.expiredPast j' h hexp) hle
    · rw [List.mem_singleton.mp h] at hexp
      rw [hjst] at hexp
      cases hexp
  · rw [hjobs]
    intro j' hmem
    rw [resolutionCount_congr hres]
    rcases List.mem_append.mp hmem with h | h
    · exact hinv.resCount j' h
    · rw [List.mem_singleton.mp h]
      have hcount : resolutionCount s newJob.id = 0 := by
        unfold resolutionCount
        rw [List.length_eq_zero, List.filter_eq_nil_iff]
        intro r hr hrid
        obtain ⟨jr, hjr, hid⟩ := hinv.resHasJob r hr
        simp only [decide_eq_true_eq] at hrid
        exact hfresh jr hjr (by rw [hid, hrid, hjid])
      rw [hcount, hjst]
      simp
  · rw [hjobs, hres]
    intro r hr
    obtain ⟨jr, hjr, hid⟩ := hinv.resHasJob r hr
    exact ⟨jr, List.mem_append_left _ hjr, hid⟩

/-- Every engine step preserves the invariant (under a monotone clock). -/
theorem sysInv_step {cfg : EngineConfig} {now : Nat} {s s' : StorageState} {t : Nat}
    (hinv : SysInv s t) (hle : t ≤ now) (hstep : Step cfg now s s') : SysInv s' now := by
  cases hstep with
  | postJob agentId input jobId hfresh => exact sysInv_postJob hinv hle hfresh
  | claimJob agentId jobId input =>
    rcases claimJob_char cfg agentId jobId input now s with h | ⟨j, hfind, hst, _, _, hjobs, hres⟩
    · exact sysInv_sameJobsRes hinv hle h
    · exact sysInv_replaceFirst hinv hle hfind hjobs hres (Or.inl rfl) hst
  | heartbeat agentId jobId =>
    exact sysInv_sameJobsRes hinv hle (heartbeat_sameJobsRes agentId jobId now s)
  | submitJob agentId jobId subId input =>
    rcases submitJob_char agentId jobId subId input now s with h | ⟨j, hfind, hst, _, hjobs, hres⟩
    · exact sysInv_sameJobsRes hinv hle h
    · exact sysInv_replaceFirst hinv hle hfind hjobs hres (Or.inr rfl) hst
  | vote agentId jobId voteId input =>
    exact sysInv_sameJobsRes hinv hle (vote_sameJobsRes agentId jobId voteId input now s)
  | resolveJob agentId jobId input =>
    rcases resolveJob_char cfg agentId jobId input now s with h |
      ⟨j, hfind, hst, hjobs, res, hres, hresid, hok⟩
    · rw [h]
      exact sysInv_sameJobsRes hinv hle (sameJobsRes_refl s)
    · exact sysInv_resolveStep hinv hle hfind hjobs hres hresid hst
  | applyExpiry => exact sysInv_applyExpiry hinv hle
  | recordError message =>
    exact sysInv_sameJobsRes hinv hle (recordError_sameJobsRes message now s)
  | faucet agentId amount reason =>
    exact sysInv_sameJobsRes hinv hle (appendEntry_sameJobsRes cfg _ s)
  | stakeOp agentId amount jobId =>
    exact sysInv_sameJobsRes hinv hle (appendEntry_sameJobsRes cfg _ s)
  | unstakeOp agentId amount jobId =>
    exact sysInv_sameJobsRes hinv hle (appendEntry_sameJobsRes cfg _ s)
  | payoutOp agentId amount jobId =>
    exact sysInv_sameJobsRes hinv hle (appendEntry_sameJobsRes cfg _ s)
  | slashOp agentId amount jobId reason =>
    exact sysInv_sameJobsRes hinv hle (appendEntry_sameJobsRes cfg _ s)
  | applyConfigBalancesOp balances mode =>
    exact sysInv_sameJobsRes hinv hle (applyConfigBalances_sameJobsRes balances mode now s)
  | ensureInitialCreditsOp agentId =>
    exact sysInv_sameJobsRes hinv hle (ensureInitialCredits_sameJobsRes cfg agentId now s)

/-- Every reachable state satisfies the invariant. -/
theorem reachableAt_sysInv {cfg : EngineConfig} {s : StorageState} {t : Nat}
    (h : ReachableAt cfg s t) : SysInv s t := by
  induction h with
  | init t =>
    refine ⟨?_, ?_, ?_, ?_, ?_⟩ <;> simp [initialState, resolutionCount]
  | step h hle hstep ih => exact sysInv_step ih hle hstep

theorem find?_append_of_some {p : α → Bool} {l₁ l₂ : List α} {x : α}
    (h : l₁.find? p = some x) : (l₁ ++ l₂).find? p = some x := by
  induction l₁ with
  | nil => cases h
  | cons y ys ih =>
    by_cases hy : p y
    · rw [List.find?_cons_of_pos _ hy] at h
      rw [List.cons_append, List.find?_cons_of_pos _ hy]
      exact h
    · rw [List.find?_cons_of_neg _ hy] at h
      rw [List.cons_append, List.find?_cons_of_neg _ hy]
      exact ih h

theorem find?_map_pred {q : α → Bool} {g : α → α} {l : List α}
    (hq : ∀ x, q (g x) = q x) : (l.map g).find? q = (l.find? q).map g := by
  induction l with
  | nil => rfl
  | cons y ys ih =>
    by_cases hy : q y
    · rw [List.map_cons, List.find?_cons_of_pos _ (by rw [hq]; exact hy),
        List.find?_cons_of_pos _ hy]
      rfl
    · rw [List.map_cons, List.find?_cons_of_neg _ (by rw [hq]; exact hy),
        List.find?_cons_of_neg _ hy]
      exact ih

/-- C3: resolving is idempotent-once.  On every reachable state, a
`resolveJob` aimed at a job that is already `RESOLVED` fails, and every job
has at most one `Resolution`, present exactly when its status is `RESOLVED`
(so the record is created precisely at the transition into `RESOLVED`). -/
theorem C3_resolution_idempotent_once (cfg : EngineConfig) (s : StorageState) (t : Nat)
    (hreach : ReachableAt cfg s t) :
    (∀ (agentId jobId : String) (input : ResolveInput) (now : Nat) (j : Job),
        s.jobs.find? (fun x => decide (x.id = jobId)) = some j →
        j.status = JobStatus.RESOLVED →
        exceptIsOk (JobEngine.resolveJob cfg agentId jobId input now s).2 = false) ∧
      ∀ j ∈ s.jobs,
        resolutionCount s j.id ≤ 1 ∧
        (j.status = JobStatus.RESOLVED ↔ resolutionCount s j.id = 1) := by
  have hinv := reachableAt_sysInv hreach
  constructor
  · intro agentId jobId input now j hfind hres
    unfold JobEngine.resolveJob IStorage.update JobEngine.resolveJobMutator
    rw [hfind]
    dsimp only
    rw [if_pos hres]
    rfl
  · intro j hj
    have h := hinv.resCount j hj
    refine ⟨?_, ?_, ?_⟩
    · rw [h]
      split <;> simp
    · intro hr
      rw [h, if_pos hr]
    · intro hc
      by_contra hr
      rw [h, if_neg hr] at hc
      exact absurd hc (by simp)

theorem statusRank_le_two (st : JobStatus) : statusRank st ≤ 2 := by
  cases st <;> simp [statusRank]

theorem find?_replaceFirst_status_self (jobId : String) (st : JobStatus) (l : List Job) :
    (replaceFirst (fun x => decide (x.id = jobId)) (fun x => { x with status := st }) l).find?
        (fun x => decide (x.id = jobId)) =
      (l.find? (fun x => decide (x.id = jobId))).map (fun x => { x with status := st }) :=
  find?_replaceFirst_self (fun x hx => hx)

theorem find?_replaceFirst_status_other (jobId qid : String) (st : JobStatus) (l : List Job)
    (hne : qid ≠ jobId) :
    (replaceFirst (fun x => decide (x.id = jobId)) (fun x => { x with status := st }) l).find?
        (fun x => decide (x.id = qid)) = l.find? (fun x => decide (x.id = qid)) := by
  refine find?_replaceFirst_other (fun x hx => ?_) (fun x hx => ?_) <;>
  · simp only [decide_eq_true_eq] at hx
    simp only [hx, decide_eq_false_iff_not]
    exact fun h => hne h.symm

/-- C4 (amended): across every engine step from a reachable state, a job's
status stays in the forward lattice — ranks never decrease — with the single
exception that `submitJob` performs no expiry check and moves an `EXPIRED`
job back to `SUBMITTED`; `RESOLVED` and `CANCELLED` jobs are never mutated
(`CANCELLED` is unreachable — no engine operation produces it). -/
theorem C4_amended_status_forward (cfg : EngineConfig) (s : StorageState) (t now : Nat)
    (s' : StorageState) (hreach : ReachableAt cfg s t) (hle : t ≤ now)
    (hstep : Step cfg now s s') (jobId : String) (j j' : Job)
    (hfind : s.jobs.find? (fun x => decide (x.id = jobId)) = some j)
    (hfind' : s'.jobs.find? (fun x => decide (x.id = jobId)) = some j') :
    (statusRank j.status ≤ statusRank j'.status ∨
      (j.status = JobStatus.EXPIRED ∧ j'.status = JobStatus.SUBMITTED)) ∧
      (j.status = JobStatus.RESOLVED → j' = j) ∧
      (j.status = JobStatus.CANCELLED → j' = j) := by
  have hinv := reachableAt_sysInv hreach
  have hjmem : j ∈ s.jobs := (find?_eq_some_mem hfind).1
  have hnotcancel : j.status ≠ JobStatus.CANCELLED := by
    rcases hinv.statusOk j hjmem with h | h | h | h | h <;> simp [h]
  have triv : j' = j →
      (statusRank j.status ≤ statusRank j'.status ∨
        (j.status = JobStatus.EXPIRED ∧ j'.status = JobStatus.SUBMITTED)) ∧
        (j.status = JobStatus.RESOLVED → j' = j) ∧
        (j.status = JobStatus.CANCELLED → j' = j) := by
    intro he
    exact ⟨Or.inl (he ▸ le_refl _), fun _ => he, fun _ => he⟩
  have same_case : ∀ {s₂ : StorageState}, SameJobsRes s s₂ →
      s₂.jobs.find? (fun x => decide (x.id = jobId)) = some j' → j' = j := by
    intro s₂ hsame hf
    rw [hsame.1, hfind] at hf
    injection hf with h
    exact h.symm
  cases hstep with
  | postJob agentId input opId hfresh =>
    obtain ⟨hjobs, -, -, -⟩ := postJob_char agentId input opId now s
    rw [hjobs, find?_append_of_some hfind] at hfind'
    exact triv (by injection hfind' with h; exact h.symm)
  | claimJob agentId opId input =>
    rcases claimJob_char cfg agentId opId input now s with hsame |
      ⟨j₀, hfind₀, hst, hcn, hexp, hjobs, -⟩
    · exact triv (same_case hsame hfind')
    · rw [hjobs] at hfind'
      by_cases hq : jobId = opId
      · subst hq
        rw [find?_replaceFirst_status_self jobId JobStatus.IN_PROGRESS, hfind] at hfind'
        rw [hfind] at hfind₀
        injection hfind₀ with hj₀
        subst hj₀
        have hj' : j' = { j with status := JobStatus.IN_PROGRESS } := by
          injection hfind' with h
          exact h.symm
        have hnotexp : j.status ≠ JobStatus.EXPIRED := by
          intro hx
          exact hexp (le_trans (hinv.expiredPast j hjmem hx) hle)
        have hst' : j'.status = JobStatus.IN_PROGRESS := by rw [hj']
        refine ⟨Or.inl ?_, fun hr => absurd hr hst, fun hr => absurd hr hcn⟩
        rw [hst']
        rcases hinv.statusOk j hjmem with h | h | h | h | h
        · simp [h, statusRank]
        · simp [h, statusRank]
        · simp [h, statusRank]
        · exact absurd h hst
        · exact absurd h hnotexp
      · rw [find?_replaceFirst_status_other opId jobId _ s.jobs hq] at hfind'
        rw [hfind] at hfind'
        exact triv (by injection hfind' with h; exact h.symm)
  | heartbeat agentId opId =>
    exact triv (same_case (heartbeat_sameJobsRes agentId opId now s) hfind')
  | submitJob agentId opId subId input =>
    rcases submitJob_char agentId opId subId input now s with hsame |
      ⟨j₀, hfind₀, hst, hcn, hjobs, -⟩
    · exact triv (same_case hsame hfind')
    · rw [hjobs] at hfind'
      by_cases hq : jobId = opId
      · subst hq
        rw [find?_replaceFirst_status_self jobId JobStatus.SUBMITTED, hfind] at hfind'
        rw [hfind] at hfind₀
        injection hfind₀ with hj₀
        subst hj₀
        have hj' : j' = { j with status := JobStatus.SUBMITTED } := by
          injection hfind' with h
          exact h.symm
        have hst' : j'.status = JobStatus.SUBMITTED := by rw [hj']
        refine ⟨?_, fun hr => absurd hr hst, fun hr => absurd hr hcn⟩
        rcases hinv.statusOk j hjmem with h | h | h | h | h
        · exact Or.inl (by simp [hst', h, statusRank])
        · exact Or.inl (by simp [hst', h, statusRank])
        · exact Or.inl (by simp [hst', h, statusRank])
        · exact absurd h hst
        · exact Or.inr ⟨h, hst'⟩
      · rw [find?_replaceFirst_status_other opId jobId _ s.jobs hq] at hfind'
        rw [hfind] at hfind'
        exact triv (by injection hfind' with h; exact h.symm)
  | vote agentId opId voteId input =>
    exact triv (same_case (vote_sameJobsRes agentId opId voteId input now s) hfind')
  | resolveJob agentId opId input =>
    rcases resolveJob_char cfg agentId opId input now s with hsame |
      ⟨j₀, hfind₀, hst, hjobs, res, -, -, -⟩
    · rw [hsame] at hfind'
      rw [hfind] at hfind'
      exact triv (by injection hfind' with h; exact h.symm)
    · rw [hjobs] at hfind'
      by_cases hq : jobId = opId
      · subst hq
        rw [find?_replaceFirst_status_self jobId JobStatus.RESOLVED, hfind] at hfind'
        rw [hfind] at hfind₀
        injection hfind₀ with hj₀
        subst hj₀
        have hj' : j' = { j with status := JobStatus.RESOLVED } := by
          injection hfind' with h
          exact h.symm
        have hst' : j'.status = JobStatus.RESOLVED := by rw [hj']
        refine ⟨Or.inl ?_, fun hr => absurd hr hst, fun hr => absurd hr hnotcancel⟩
        rw [hst']
        exact statusRank_le_two j.status
      · rw [find?_replaceFirst_status_other opId jobId _ s.jobs hq] at hfind'
        rw [hfind] at hfind'
        exact triv (by injection hfind' with h; exact h.symm)
  | applyExpiry =>
    have hg : ∀ x : Job,
        (fun x => decide (x.id = jobId))
            ((fun job =>
              if (job.status = JobStatus.OPEN ∨ job.status = JobStatus.IN_PROGRESS ∨
                    job.status = JobStatus.SUBMITTED) ∧ isPast job.expiresAt now then
                { job with status := JobStatus.EXPIRED }
              else job) x) =
          (fun x => decide (x.id = jobId)) x := by
      intro x
      by_cases hc : (x.status = JobStatus.OPEN ∨ x.status = JobStatus.IN_PROGRESS ∨
          x.status = JobStatus.SUBMITTED) ∧ isPast x.expiresAt now
      · simp only [if_pos hc]
      · simp only [if_neg hc]
    have hjobs : (JobEngine.applyExpiry now s).jobs = s.jobs.map (fun job =>
        if (job.status = JobStatus.OPEN ∨ job.status = JobStatus.IN_PROGRESS ∨
              job.status = JobStatus.SUBMITTED) ∧ isPast job.expiresAt now then
          { job with status := JobStatus.EXPIRED }
        else job) := rfl
    rw [hjobs, find?_map_pred hg, hfind] at hfind'
    injection hfind' with hj'
    dsimp only at hj'
    split at hj'
    · rename_i hc
      refine ⟨Or.inl ?_, fun hr => ?_, fun hr => ?_⟩
      · rw [← hj']
        exact statusRank_le_two j.status
      · rcases hc.1 with h | h | h <;> rw [hr] at h <;> cases h
      · rcases hc.1 with h | h | h <;> rw [hr] at h <;> cases h
    · exact triv hj'.symm
  | recordError message =>
    exact triv (same_case (recordError_sameJobsRes message now s) hfind')
  | faucet agentId amount reason =>
    exact triv (same_case (appendEntry_sameJobsRes cfg _ s) hfind')
  | stakeOp agentId amount opJobId =>
    exact triv (same_case (appendEntry_sameJobsRes cfg _ s) hfind')
  | unstakeOp agentId amount opJobId =>
    exact triv (same_case (appendEntry_sameJobsRes cfg _ s) hfind')
  | payoutOp agentId amount opJobId =>
    exact triv (same_case (appendEntry_sameJobsRes cfg _ s) hfind')
  | slashOp agentId amount opJobId reason =>
    exact triv (same_case (appendEntry_sameJobsRes cfg _ s) hfind')
  | applyConfigBalancesOp balances mode =>
    exact triv (same_case (applyConfigBalances_sameJobsRes balances mode now s) hfind')
  | ensureInitialCreditsOp agentId =>
    exact triv (same_case (ensureInitialCredits_sameJobsRes cfg agentId now s) hfind')

/-- C4 counterexample: the engine-operation sequence `postJob` (t=0, expiry
10) → `applyExpiry` via list/get (t=20) → `submitJob` (t=20) moves the job's
status from `EXPIRED` back to `SUBMITTED`: `submitJob` performs no expiry
check, so the claimed forward-only lattice is violated. -/
theorem C4_counterexample :
    ((c4Expired.jobs.find? (fun x => decide (x.id = "job1"))).map Job.status
        = some JobStatus.EXPIRED) ∧
      ((c4Submitted.jobs.find? (fun x => decide (x.id = "job1"))).map Job.status
        = some JobStatus.SUBMITTED) ∧
      exceptIsOk (JobEngine.submitJob "a" "job1" "s1" { confidence := 1 } 20 c4Expired).2
        = true := by
  refine ⟨?_, ?_, ?_⟩ <;> rfl

/-- Witness for C4: instantiating the amended theorem on the concrete
reachable sequence `postJob` (t=0) then `applyExpiry` (t=20). -/
theorem C4_amended_status_forward_witness :
    statusRank c4job.status ≤ statusRank c4jobExpired.status ∨
      (c4job.status = JobStatus.EXPIRED ∧ c4jobExpired.status = JobStatus.SUBMITTED) :=
  (C4_amended_status_forward cfg0 c4Posted 0 20 c4Expired
    (ReachableAt.step (ReachableAt.init 0) (le_refl 0)
      (Step.postJob initialState "owner" c4PostInput "job1" (by simp [initialState])))
    (by decide)
    (Step.applyExpiry c4Posted)
    "job1" c4job c4jobExpired rfl rfl).1

/-- Witness for C3: on the concrete reachable state with `job1` RESOLVED, a
second `resolveJob` fails and exactly one Resolution is stored. -/
theorem C3_resolution_idempotent_once_witness :
    exceptIsOk (JobEngine.resolveJob cfg0 "agent2" "job1" {} 6 c3Resolved).2 = false ∧
      resolutionCount c3Resolved "job1" = 1 := by
  have hreach : ReachableAt cfg0 c3Resolved 5 :=
    ReachableAt.step
      (ReachableAt.step (ReachableAt.init 0) (le_refl 0)
        (Step.postJob initialState "owner" c4PostInput "job1" (by simp [initialState])))
      (by decide)
      (Step.resolveJob c4Posted "owner" "job1" {})
  have h := C3_resolution_idempotent_once cfg0 c3Resolved 5 hreach
  refine ⟨h.1 "agent2" "job1" {} 6 c3job rfl rfl, ?_⟩
  have h2 := (h.2 c3job (by decide)).2.1 rfl
  exact h2

/-- C10: for any policy other than TRUSTED_ARBITER and OWNER_PICK, an empty
submissions list short-circuits `resolveConsensus` to the
`"no_submissions"` empty result — the check precedes the APPROVAL_VOTE
branch, so it fires even with a configured quorum or manual winners under
oracle settlement. -/
theorem C10_no_submissions_short_circuit (input : ConsensusInput)
    (hpol1 : input.job.consensusPolicy.type ≠ ConsensusPolicyType.TRUSTED_ARBITER)
    (hpol2 : input.job.consensusPolicy.type ≠ ConsensusPolicyType.OWNER_PICK)
    (hsubs : input.submissions = []) :
    (resolveConsensus input).winners = [] ∧
      (resolveConsensus input).winningSubmissionIds = [] ∧
      (resolveConsensus input).finalArtifact = none ∧
      (resolveConsensus input).consensusTrace.reason = some "no_submissions" := by
  unfold resolveConsensus
  rw [if_neg hpol1, if_neg hpol2, if_pos (by rw [hsubs]; rfl)]
  exact ⟨rfl, rfl, rfl, rfl⟩

/-- Witness for C10 at the oracle-settlement manual-winner input. -/
theorem C10_no_submissions_short_circuit_witness :
    (resolveConsensus c10Input).winners = [] ∧
      (resolveConsensus c10Input).winningSubmissionIds = [] ∧
      (resolveConsensus c10Input).finalArtifact = none ∧
      (resolveConsensus c10Input).consensusTrace.reason = some "no_submissions" :=
  C10_no_submissions_short_circuit c10Input (by decide) (by decide) rfl

/-- C8: the whole payout/slash/resolution write of `resolveJob` is one
`storage.update` mutation; when the mutator throws, nothing is persisted —
in particular no ledger entries and no Resolution record. -/
theorem C8_resolve_atomic (cfg : EngineConfig) (agentId jobId : String) (input : ResolveInput)
    (now : Nat) (s : StorageState) (e : String)
    (herr : (JobEngine.resolveJob cfg agentId jobId input now s).2 = Except.error e) :
    (JobEngine.resolveJob cfg agentId jobId input now s).1 = s ∧
      (JobEngine.resolveJob cfg agentId jobId input now s).1.ledger = s.ledger ∧
      (JobEngine.resolveJob cfg agentId jobId input now s).1.resolutions = s.resolutions := by
  cases h : JobEngine.resolveJobMutator cfg agentId jobId input now s with
  | error e' =>
    unfold JobEngine.resolveJob IStorage.update
    rw [h]
    exact ⟨rfl, rfl, rfl⟩
  | ok v =>
    unfold JobEngine.resolveJob IStorage.update at herr
    rw [h] at herr
    obtain ⟨s₀, r₀⟩ := v
    cases herr

/-- Witness for C8: a failing `resolveJob` (unknown job id) persists
nothing. -/
theorem C8_resolve_atomic_witness :
    (JobEngine.resolveJob cfg0 "a" "nope" {} 0 initialState).1 = initialState ∧
      (JobEngine.resolveJob cfg0 "a" "nope" {} 0 initialState).1.ledger = initialState.ledger ∧
      (JobEngine.resolveJob cfg0 "a" "nope" {} 0 initialState).1.resolutions
        = initialState.resolutions :=
  C8_resolve_atomic cfg0 "a" "nope" {} 0 initialState ("Job not found: " ++ "nope") rfl

/-- C9: `resolveConsensus` is a pure function of its inputs (in this
embedding it is a Lean function, so equal inputs give equal outputs), and a
stored Resolution's winners / winningSubmissionIds / finalArtifact are
exactly what an independent recomputation of `resolveConsensus` over the
pre-state document returns. -/
theorem C9_resolution_recomputable (cfg : EngineConfig) (agentId jobId : String)
    (input : ResolveInput) (now : Nat) (s : StorageState) (j : Job) (res : Resolution)
    (hfind : s.jobs.find? (fun x => decide (x.id = jobId)) = some j)
    (hok : (JobEngine.resolveJob cfg agentId jobId input now s).2 = Except.ok res) :
    res.winners = (resolveConsensus (recomputeInput s jobId j input)).winners ∧
      res.winningSubmissionIds
        = (resolveConsensus (recomputeInput s jobId j input)).winningSubmissionIds ∧
      res.finalArtifact = (resolveConsensus (recomputeInput s jobId j input)).finalArtifact := by
  unfold JobEngine.resolveJob IStorage.update at hok
  cases h : JobEngine.resolveJobMutator cfg agentId jobId input now s with
  | error e =>
    rw [h] at hok
    cases hok
  | ok v =>
    rw [h] at hok
    obtain ⟨s₀, r₀⟩ := v
    unfold JobEngine.resolveJobMutator at h
    rw [hfind] at h
    dsimp only at h
    repeat' split at h
    all_goals try exact Except.noConfusion h
    cases h
    cases hok
    exact ⟨rfl, rfl, rfl⟩

/-- Witness for C9: the stored resolution of the concrete resolve equals its
independent recomputation. -/
theorem C9_resolution_recomputable_witness :
    c9res.winners = (resolveConsensus (recomputeInput c4Posted "job1" c4job {})).winners ∧
      c9res.winningSubmissionIds
        = (resolveConsensus (recomputeInput c4Posted "job1" c4job {})).winningSubmissionIds ∧
      c9res.finalArtifact
        = (resolveConsensus (recomputeInput c4Posted "job1" c4job {})).finalArtifact :=
  C9_resolution_recomputable cfg0 "owner" "job1" {} 5 c4Posted c4job c9res rfl rfl

/-- C7 (bug probe): `JobEngine.vote` accepts a vote on a
FIRST_SUBMISSION_WINS job — the no-voting guard tests only the legacy alias
`SINGLE_WINNER` (which it does reject), even though `loadConfig` normalizes
`SINGLE_WINNER` to `FIRST_SUBMISSION_WINS`; a vote whose target submission
does not exist is rejected as claimed. -/
theorem C7_vote_guard_misses_first_submission_wins :
    exceptIsOk (JobEngine.vote "v" "job7" "v7"
        { submissionId := some "s7", score := some 1 } 2 c7State).2 = true ∧
      (JobEngine.vote "v" "job8" "v8"
          { submissionId := some "s8", score := some 1 } 2 c7StateLegacy).2
        = Except.error "Voting not enabled for this job" ∧
      (JobEngine.vote "v" "job7" "v9"
          { submissionId := some "missing", score := some 1 } 2 c7State).2
        = Except.error "Submission not found" := by
  refine ⟨?_, ?_, ?_⟩ <;> rfl

/-- C6 (bug probe): with oracle settlement and no manual winner supplied,
`resolveJob` does not reject — it succeeds, stores a Resolution with no
winners, and marks the job RESOLVED (the repository's own test
`tests/approval-vote.test.ts` expects this call to reject). -/
theorem C6_oracle_settlement_finalizes_without_manual_winner :
    (JobEngine.resolveJob cfg0 "owner" "job6" {} 3 c6State).2 = Except.ok c6res ∧
      ((JobEngine.resolveJob cfg0 "owner" "job6" {} 3 c6State).1.jobs.find?
          (fun x => decide (x.id = "job6"))).map Job.status = some JobStatus.RESOLVED ∧
      resolutionCount (JobEngine.resolveJob cfg0 "owner" "job6" {} 3 c6State).1 "job6" = 1 ∧
      approvalSettlement (JobEngine.postJob "owner" c6PostInput "job6" 0 initialState).2
        = Settlement.oracle := by
  refine ⟨?_, ?_, ?_, ?_⟩ <;> rfl

/-- C2 (bug probe): resolving the staked-settlement scenario — submission s2
wins, the voter staked 4 on the losing s1 — produces a resolution with NO
slashes at all and appends no SLASH ledger entry for the voter: the engine
contains no `vote_wrong` slashing code (its only slash reason is
`"timeout"`, for staked claimants who never submitted), even though the
repository's own test `tests/approval-vote.test.ts:88` asserts a
`vote_wrong` slash here. -/
theorem C2_no_vote_wrong_slashing :
    ((JobEngine.resolveJob cfg0 "owner" "job22" {} 9 c2State).2.map
        (fun r => r.winningSubmissionIds)) = Except.ok ["s2"] ∧
      ((JobEngine.resolveJob cfg0 "owner" "job22" {} 9 c2State).2.map
        (fun r => r.slashes)) = Except.ok [] ∧
      ((JobEngine.resolveJob cfg0 "owner" "job22" {} 9 c2State).1.ledger.filter
        (fun e => decide (e.type = LedgerEntryType.SLASH ∧ e.agentId = "voter"))) = [] ∧
      approvalSettlement c2Job = Settlement.staked ∧
      c2VoteWrong.stakeAmount = some 4 := by
  refine ⟨?_, ?_, ?_, rfl, rfl⟩ <;>
    norm_num +decide [JobEngine.resolveJob, IStorage.update, JobEngine.resolveJobMutator,
      resolveConsensus, approvalVoteBranch, approvalRanked, approvalCountedVotes,
      approvalScores, approvalVoteCounts, approvalVoteKey, approvalWeight, approvalWeightMode,
      approvalSettlement, effTieBreak, effMinScore, effMinMargin, approvalTieKey,
      approvalMargin, clampScore, bumpRat, bumpNat, lookupRat, lookupNat, quorumFails,
      strTruthy, manualProvided, optStrList, findArtifact, rankBy, List.insertionSort,
      List.orderedInsert, lexLe, reputationOf, resolvePayouts, resolveSlashInfo,
      calculateSlashAmount, replaceFirst, resolutionCount,
      c2State, c2Job, c2SubLoser, c2SubWinner, c2VoteWrong, c2VoteWin1, c2VoteWin2,
      List.lookup, List.eraseP, Except.map]

/-- C5 (amended): for an APPROVAL_VOTE input under immediate settlement
whose tie-break is not `arbiter` (an arbiter tie-break turns the immediate
tally into a recommendation only) and whose configured quorum, if any, is
met (a quorum shortfall returns `"quorum_not_met"` instead): only votes
targeting a submission count; each counted vote contributes
`clamp(score,-1,1) × weight` to its submission's tally (`approvalScores`,
with the weight chosen by `weightMode`); the head of the ranking wins iff it
has at least one vote, tally ≥ `minScore` and margin over the runner-up ≥
`minMargin`, and it carries the maximal tally of all submissions; otherwise
the result is empty with reason `"no_votes"` or `"threshold_not_met"`. -/
theorem C5_amended_approval_immediate (input : ConsensusInput)
    (hpol : input.job.consensusPolicy.type = ConsensusPolicyType.APPROVAL_VOTE)
    (hsett : approvalSettlement input.job = Settlement.immediate)
    (htb : effTieBreak input.job ≠ TieBreak.arbiter)
    (hsubs : input.submissions.isEmpty = false)
    (hq : quorumFails input.job.consensusPolicy.quorum
      (approvalCountedVotes input.votes).length = false)
    (best : RankedSub) (rest : List RankedSub)
    (hranked : approvalRanked input = best :: rest) :
    (best.votes = 0 →
      (resolveConsensus input).winners = [] ∧
        (resolveConsensus input).consensusTrace.reason = some "no_votes") ∧
      (best.votes ≠ 0 →
        (best.score < effMinScore input.job ∨
            approvalMargin best rest < effMinMargin input.job) →
        (resolveConsensus input).winners = [] ∧
          (resolveConsensus input).consensusTrace.reason = some "threshold_not_met") ∧
      (best.votes ≠ 0 →
        ¬ (best.score < effMinScore input.job ∨
            approvalMargin best rest < effMinMargin input.job) →
        (resolveConsensus input).winners = [best.sub.agentId] ∧
          (resolveConsensus input).winningSubmissionIds = [best.sub.id] ∧
          (resolveConsensus input).finalArtifact = some best.sub.artifacts ∧
          ∀ sub ∈ input.submissions,
            lookupRat
              (approvalScores (approvalWeightMode input.job) input.reputation
                (approvalCountedVotes input.votes)) sub.id ≤ best.score) := by
  have hbranch : resolveConsensus input = approvalVoteBranch input := by
    unfold resolveConsensus
    rw [if_neg (by intro h; rw [hpol] at h; cases h),
      if_neg (by intro h; rw [hpol] at h; cases h),
      if_neg (by rw [hsubs]; intro h; cases h),
      if_neg (by intro h; rw [hpol] at h; cases h),
      if_pos hpol]
  have hmax : ∀ sub ∈ input.submissions,
      lookupRat
        (approvalScores (approvalWeightMode input.job) input.reputation
          (approvalCountedVotes input.votes)) sub.id ≤ best.score := by
    intro sub hsub
    unfold approvalRanked at hranked
    have hmem :
        ({ sub := sub,
           score := lookupRat
             (approvalScores (approvalWeightMode input.job) input.reputation
               (approvalCountedVotes input.votes)) sub.id,
           votes := lookupNat (approvalVoteCounts (approvalCountedVotes input.votes))
             sub.id } : RankedSub) ∈
          input.submissions.map (fun sub =>
            ({ sub := sub,
               score := lookupRat
                 (approvalScores (approvalWeightMode input.job) input.reputation
                   (approvalCountedVotes input.votes)) sub.id,
               votes := lookupNat (approvalVoteCounts (approvalCountedVotes input.votes))
                 sub.id } : RankedSub)) :=
      List.mem_map_of_mem _ hsub
    exact rankBy_head_key_max (fun r => r.score) (approvalTieKey (effTieBreak input.job))
      _ best rest hranked _ hmem
  rw [hbranch]
  unfold approvalVoteBranch
  rw [if_neg (by rw [hsett]; intro h; cases h.1),
    if_neg (by rw [hq]; intro h; cases h),
    hranked]
  dsimp only
  refine ⟨?_, ?_, ?_⟩
  · intro hv
    rw [if_pos hv]
    exact ⟨rfl, rfl⟩
  · intro hv hthr
    rw [if_neg hv, if_pos hthr]
    exact ⟨rfl, rfl⟩
  · intro hv hthr
    rw [if_neg hv, if_neg hthr,
      if_neg (by
        rw [hsett]
        rintro (h | h)
        · cases h
        · exact htb h)]
    exact ⟨rfl, rfl, rfl, hmax⟩

/-- C5 counterexample: under immediate settlement with `tieBreak = arbiter`,
the highest-scoring submission s2 has one vote, tally 1 ≥ minScore = 1 and
margin 1 ≥ minMargin = 0, yet the result is empty (`awaiting_oracle`), so
the claim as stated — winner = highest-scoring submission whenever
settlement is immediate and the thresholds are met — is false. -/
theorem C5_counterexample :
    approvalSettlement c5CexInput.job = Settlement.immediate ∧
      (approvalRanked c5CexInput).map (fun r => (r.sub.id, r.votes)) = [("s2", 1), ("s1", 0)] ∧
      (approvalRanked c5CexInput).map (fun r => r.score) = [1, 0] ∧
      effMinScore c5CexInput.job = 1 ∧
      effMinMargin c5CexInput.job = 0 ∧
      (resolveConsensus c5CexInput).winners = [] ∧
      (resolveConsensus c5CexInput).consensusTrace.mode = some "awaiting_oracle" := by
  refine ⟨rfl, ?_, ?_, rfl, rfl, ?_, ?_⟩ <;>
    norm_num +decide [resolveConsensus, approvalVoteBranch, approvalRanked,
      approvalCountedVotes, approvalScores, approvalVoteCounts, approvalVoteKey,
      approvalWeight, approvalWeightMode, approvalSettlement, effTieBreak, effMinScore,
      effMinMargin, approvalTieKey, approvalMargin, clampScore, bumpRat, bumpNat, lookupRat,
      lookupNat, upsertRat, upsertNat, quorumFails, strTruthy, manualProvided, optStrList,
      findArtifact, rankBy, List.insertionSort, List.orderedInsert, lexLe,
      c5CexInput, c5CexJob, c5SubA, c5SubB, c5VoteB]

/-- Witness for C5: instantiating the amended theorem on the claim's
scenario — the second submission wins despite being submitted later. -/
theorem C5_amended_approval_immediate_witness :
    (resolveConsensus c5ScnInput).winners = ["b"] ∧
      (resolveConsensus c5ScnInput).winningSubmissionIds = ["s2"] := by
  have hranked : approvalRanked c5ScnInput = c5ScnBest :: [c5ScnRest] := by
    norm_num +decide [approvalRanked, approvalCountedVotes, approvalScores,
      approvalVoteCounts, approvalVoteKey, approvalWeight, approvalWeightMode, effTieBreak,
      approvalTieKey, clampScore, bumpRat, bumpNat, lookupRat, lookupNat, upsertRat,
      upsertNat, strTruthy, rankBy, List.insertionSort, List.orderedInsert, lexLe,
      c5ScnInput, c5ScnJob, c5SubA, c5SubB, c5VoteB, c5ScnBest, c5ScnRest]
  have h := (C5_amended_approval_immediate c5ScnInput rfl rfl (by decide) rfl rfl
    c5ScnBest [c5ScnRest] hranked).2.2 (by decide)
    (by
      rintro (h | h) <;>
        norm_num [c5ScnBest, c5ScnRest, approvalMargin, effMinScore, effMinMargin,
          c5ScnInput, c5ScnJob] at h)
  exact ⟨h.1, h.2.1⟩

theorem getBalance_go (a : String) :
    ∀ (l : List LedgerEntry) (init : Rat),
      l.foldl (fun sum e => if e.agentId = a then sum + e.amount else sum) init
        = init + getBalance l a := by
  intro l
  induction l with
  | nil =>
    intro init
    simp [getBalance]
  | cons e rest ih =>
    intro init
    unfold getBalance
    simp only [List.foldl_cons]
    rw [ih, ih]
    by_cases he : e.agentId = a
    · simp only [if_pos he]
      ring
    · simp only [if_neg he]
      ring

theorem getBalance_cons (e : LedgerEntry) (l : List LedgerEntry) (a : String) :
    getBalance (e :: l) a = (if e.agentId = a then e.amount else 0) + getBalance l a := by
  unfold getBalance
  simp only [List.foldl_cons]
  rw [getBalance_go]
  by_cases he : e.agentId = a
  · simp [he, getBalance]
  · simp [he, getBalance]

theorem getBalance_append (l₁ l₂ : List LedgerEntry) (a : String) :
    getBalance (l₁ ++ l₂) a = getBalance l₁ a + getBalance l₂ a := by
  unfold getBalance
  rw [List.foldl_append, getBalance_go]
  rfl

theorem getBalance_nil (a : String) : getBalance [] a = 0 := rfl

theorem getBalance_singleton (e : LedgerEntry) (a : String) :
    getBalance [e] a = if e.agentId = a then e.amount else 0 := by
  rw [getBalance_cons, getBalance_nil, add_zero]

theorem getBalance_nonneg_of_forall {l : List LedgerEntry} (a : String)
    (h : ∀ e ∈ l, 0 ≤ e.amount) : 0 ≤ getBalance l a := by
  induction l with
  | nil => simp [getBalance_nil]
  | cons e rest ih =>
    rw [getBalance_cons]
    have h₁ : 0 ≤ e.amount := h e (List.mem_cons_self e rest)
    have h₂ := ih (fun x hx => h x (List.mem_cons_of_mem e hx))
    by_cases he : e.agentId = a
    · rw [if_pos he]
      linarith
    · rw [if_neg he]
      linarith

theorem ensureNonNegative_ok {b : Rat} {c : String} {u : Unit}
    (h : ensureNonNegative b c = Except.ok u) : 0 ≤ b := by
  unfold ensureNonNegative at h
  split at h
  · exact Except.noConfusion h
  · rename_i hn
    push_neg at hn
    exact hn

/-- `applyConfigBalancesStep` preserves non-negative balances: the only
entry it appends resets the agent's balance to the configured target, which
`ensureNonNegative` has checked. -/
theorem applyConfigBalancesStep_preserves {mode : BalancesMode} {now : Nat}
    {st st' : StorageState} {p : String × Rat}
    (h : applyConfigBalancesStep mode now st p = Except.ok st')
    (hnn : AllBalancesNonneg st) : AllBalancesNonneg st' := by
  unfold applyConfigBalancesStep at h
  dsimp only at h
  repeat' split at h
  all_goals try exact Except.noConfusion h
  · cases h
    exact hnn
  · cases h
    exact hnn
  · rename_i u hok
    have hge := ensureNonNegative_ok hok
    cases h
    intro a
    show 0 ≤ getBalance (st.ledger ++ [_]) a
    rw [getBalance_append, getBalance_singleton]
    by_cases ha : p.1 = a
    · rw [if_pos ha]
      rw [← ha]
      dsimp only
      linarith [hge]
    · rw [if_neg ha]
      have := hnn a
      linarith

theorem configBalancesFold_preserves {mode : BalancesMode} {now : Nat} :
    ∀ (balances : List (String × Rat)) (s s' : StorageState),
      configBalancesFold mode now balances s = Except.ok s' →
      AllBalancesNonneg s → AllBalancesNonneg s' := by
  intro balances
  induction balances with
  | nil =>
    intro s s' h hnn
    unfold configBalancesFold at h
    cases h
    exact hnn
  | cons p rest ih =>
    intro s s' h hnn
    unfold configBalancesFold at h
    cases hstep : applyConfigBalancesStep mode now s p with
    | error e =>
      rw [hstep] at h
      exact Except.noConfusion h
    | ok st =>
      rw [hstep] at h
      exact ih st s' h (applyConfigBalancesStep_preserves hstep hnn)

theorem applyConfigBalances_preserves (balances : List (String × Rat)) (mode : BalancesMode)
    (now : Nat) (s : StorageState) (hnn : AllBalancesNonneg s) :
    AllBalancesNonneg (LedgerEngine.applyConfigBalances balances mode now s).1 := by
  unfold LedgerEngine.applyConfigBalances
  split
  · exact hnn
  · unfold IStorage.update applyConfigBalancesMutator
    cases hf : configBalancesFold mode now balances s with
    | error e => simp only [hf]; exact hnn
    | ok s' => simp only [hf]; exact configBalancesFold_preserves balances s s' hf hnn

/-- A rejected `appendEntry`: when the post-entry balance would be negative,
the operation returns the insufficiency error and persists nothing. -/
theorem appendEntry_insufficient (cfg : EngineConfig) (entry : LedgerEntry) (s : StorageState)
    (h : getBalance s.ledger entry.agentId + entry.amount < 0) :
    LedgerEngine.appendEntry cfg entry s
      = (s, Except.error ("consensus-tools: insufficient credits for "
          ++ (entry.agentId ++ " after " ++ entry.type.name))) := by
  unfold LedgerEngine.appendEntry IStorage.update appendEntryMutator ensureNonNegative
  dsimp only
  rw [if_pos h]

/-- `appendEntry` preserves non-negative balances, whether it succeeds, is
rejected, or fails inside the override-mode balance hook. -/
theorem appendEntry_preserves (cfg : EngineConfig) (entry : LedgerEntry) (s : StorageState)
    (hnn : AllBalancesNonneg s) : AllBalancesNonneg (LedgerEngine.appendEntry cfg entry s).1 := by
  unfold LedgerEngine.appendEntry IStorage.update
  cases h : appendEntryMutator entry s with
  | error e => simp only [h]; exact hnn
  | ok v =>
    obtain ⟨s₁, e₁⟩ := v
    have hs₁ : AllBalancesNonneg s₁ := by
      unfold appendEntryMutator at h
      dsimp only at h
      split at h
      · exact Except.noConfusion h
      · rename_i u hok
        have hge := ensureNonNegative_ok hok
        cases h
        intro a
        show 0 ≤ getBalance (s.ledger ++ [entry]) a
        rw [getBalance_append, getBalance_singleton]
        by_cases ha : entry.agentId = a
        · rw [if_pos ha]
          rw [← ha]
          linarith [hge]
        · rw [if_neg ha]
          have := hnn a
          linarith
    simp only [h]
    split
    · have h2 := applyConfigBalances_preserves cfg.balances BalancesMode.override 0 s₁ hs₁
      cases hr : (LedgerEngine.applyConfigBalances cfg.balances BalancesMode.override 0 s₁).2 with
      | error e => simpa [hr] using h2
      | ok u => simpa [hr] using h2
    · exact hs₁

theorem ensureInitialCredits_preserves (cfg : EngineConfig) (agentId : String) (now : Nat)
    (s : StorageState) (hnn : AllBalancesNonneg s) :
    AllBalancesNonneg (LedgerEngine.ensureInitialCredits cfg agentId now s) := by
  unfold LedgerEngine.ensureInitialCredits IStorage.update
  split
  · exact hnn
  · rename_i hpos
    push_neg at hpos
    dsimp only
    split
    · rename_i s' u heq
      split at heq
      · cases heq
        exact hnn
      · cases heq
        intro a
        show 0 ≤ getBalance (s.ledger ++ [_]) a
        rw [getBalance_append, getBalance_singleton]
        by_cases ha : agentId = a
        · rw [if_pos ha]
          dsimp only
          have := hnn a
          linarith
        · rw [if_neg ha]
          have := hnn a
          linarith
    · exact hnn

theorem claimJob_preserves (cfg : EngineConfig) (agentId jobId : String) (input : ClaimInput)
    (now : Nat) (s : StorageState) (hnn : AllBalancesNonneg s) :
    AllBalancesNonneg (JobEngine.claimJob cfg agentId jobId input now s).1 := by
  unfold JobEngine.claimJob IStorage.update
  dsimp only
  have h₀ : AllBalancesNonneg (LedgerEngine.ensureInitialCredits cfg agentId now s) :=
    ensureInitialCredits_preserves cfg agentId now s hnn
  cases h : JobEngine.claimJobMutator agentId jobId input now
      (LedgerEngine.ensureInitialCredits cfg agentId now s) with
  | error e => exact h₀
  | ok v =>
    obtain ⟨s₁, asg⟩ := v
    unfold JobEngine.claimJobMutator at h
    cases hfind : (LedgerEngine.ensureInitialCredits cfg agentId now s).jobs.find?
        (fun x => decide (x.id = jobId)) with
    | none =>
      rw [hfind] at h
      exact Except.noConfusion h
    | some j =>
      rw [hfind] at h
      dsimp only at h
      repeat' split at h
      all_goals try exact Except.noConfusion h
      cases h
      rename_i hst hexp hexist hfull x u hens
      have hge := ensureNonNegative_ok hens
      intro a
      show 0 ≤ getBalance ((LedgerEngine.ensureInitialCredits cfg agentId now s).ledger ++ [_]) a
      rw [getBalance_append, getBalance_singleton]
      by_cases ha : agentId = a
      · rw [if_pos ha]
        rw [← ha]
        dsimp only
        linarith [hge]
      · rw [if_neg ha]
        have := h₀ a
        linarith

theorem resolveSlashInfo_le_stake (cfg : EngineConfig) (job : Job) (sa : List String) (bid : Bid)
    (h : 0 < (resolveSlashInfo cfg job sa bid).1) :
    (resolveSlashInfo cfg job sa bid).1 ≤ bid.stakeAmount := by
  unfold resolveSlashInfo at h ⊢
  split at h
  · rename_i hc
    rw [if_pos hc]
    exact min_le_right _ _
  · simp at h

/-- Summing two `filterMap`-generated ledger fragments over the same bid
list: if every bid's combined contribution to agent `a` is non-negative, so
is the combined balance. -/
theorem getBalance_filterMap_pair (f g : Bid → Option LedgerEntry) (a : String)
    (h : ∀ b : Bid,
      0 ≤ ((f b).elim 0 (fun e => if e.agentId = a then e.amount else 0))
          + ((g b).elim 0 (fun e => if e.agentId = a then e.amount else 0))) :
    ∀ bids : List Bid,
      0 ≤ getBalance (bids.filterMap f) a + getBalance (bids.filterMap g) a := by
  intro bids
  induction bids with
  | nil =>
    simp only [List.filterMap_nil, getBalance_nil]
    norm_num
  | cons b bids ih =>
    have hb := h b
    cases hf : f b with
    | none =>
      cases hg : g b with
      | none =>
        simp only [List.filterMap_cons, hf, hg]
        exact ih
      | some eg =>
        simp only [List.filterMap_cons, hf, hg]
        rw [getBalance_cons]
        rw [hf, hg] at hb
        simp only [Option.elim_none, Option.elim_some] at hb
        linarith [ih, hb]
    | some ef =>
      cases hg : g b with
      | none =>
        simp only [List.filterMap_cons, hf, hg]
        rw [getBalance_cons]
        rw [hf, hg] at hb
        simp only [Option.elim_none, Option.elim_some] at hb
        linarith [ih, hb]
      | some eg =>
        simp only [List.filterMap_cons, hf, hg]
        rw [getBalance_cons, getBalance_cons]
        rw [hf, hg] at hb
        simp only [Option.elim_none, Option.elim_some] at hb
        linarith [ih, hb]

theorem payoutEntries_balance_nonneg (job : Job) (winners : List String) (now : Nat)
    (jobId a : String) (hrw : 0 ≤ job.reward) :
    0 ≤ getBalance ((resolvePayouts job winners).map (fun p =>
      { atTime := now, type := LedgerEntryType.PAYOUT, agentId := p.agentId,
        amount := p.amount, jobId := some jobId })) a := by
  apply getBalance_nonneg_of_forall
  intro e he
  simp only [List.mem_map] at he
  obtain ⟨p, hp, rfl⟩ := he
  show 0 ≤ p.amount
  unfold resolvePayouts at hp
  split at hp
  · exact absurd hp (List.not_mem_nil p)
  · simp only [List.mem_map] at hp
    obtain ⟨w, hw, rfl⟩ := hp
    show 0 ≤ job.reward / ((winners.length : Nat) : Rat)
    exact div_nonneg hrw (by positivity)

/-- Unstake and slash fragments written by `resolveJob`: per agent they sum
to a non-negative amount, because each slash is bounded by that bid's stake
and a positive slash forces a matching positive unstake. -/
theorem unstake_slash_balance_nonneg (cfg : EngineConfig) (job : Job) (sa : List String)
    (now : Nat) (jobId a : String) (bids : List Bid) :
    0 ≤ getBalance (bids.filterMap (fun bid =>
          if 0 < bid.stakeAmount then
            some { atTime := now, type := LedgerEntryType.UNSTAKE, agentId := bid.agentId,
                   amount := bid.stakeAmount, jobId := some jobId }
          else none)) a
        + getBalance ((bids.filterMap (fun bid =>
            let info := resolveSlashInfo cfg job sa bid
            if 0 < info.1 then
              some ({ agentId := bid.agentId, amount := info.1, reason := info.2 } : SlashRecord)
            else none)).map (fun sl =>
              ({ atTime := now, type := LedgerEntryType.SLASH, agentId := sl.agentId,
                 amount := -|sl.amount|, jobId := some jobId,
                 reason := some sl.reason } : LedgerEntry))) a := by
  rw [List.map_filterMap]
  apply getBalance_filterMap_pair
  intro b
  dsimp only
  by_cases hsl : 0 < (resolveSlashInfo cfg job sa b).1
  · have hle := resolveSlashInfo_le_stake cfg job sa b hsl
    have hstake : 0 < b.stakeAmount := lt_of_lt_of_le hsl hle
    rw [if_pos hstake, if_pos hsl]
    simp only [Option.map_some', Option.elim_some]
    by_cases ha : b.agentId = a
    · rw [if_pos ha, if_pos ha]
      rw [abs_of_pos hsl]
      linarith
    · rw [if_neg ha, if_neg ha]
      norm_num
  · rw [if_neg hsl]
    simp only [Option.map_none', Option.elim_none]
    by_cases hstake : 0 < b.stakeAmount
    · rw [if_pos hstake]
      simp only [Option.elim_some]
      by_cases ha : b.agentId = a
      · rw [if_pos ha]
        linarith
      · rw [if_neg ha]
        norm_num
    · rw [if_neg hstake]
      simp only [Option.elim_none]
      norm_num

theorem ledger_extension_mono (base U P SL : List LedgerEntry) (a : String)
    (h1 : 0 ≤ getBalance U a + getBalance SL a) (h2 : 0 ≤ getBalance P a) :
    getBalance base a ≤ getBalance (base ++ U ++ P ++ SL) a := by
  rw [getBalance_append, getBalance_append, getBalance_append]
  linarith

/-- Balances never decrease across `resolveJob` when the (found) job's
reward is non-negative: every payout entry is then non-negative and every
slash is covered by the matching unstake. -/
theorem resolveJob_balance_mono (cfg : EngineConfig) (agentId jobId : String)
    (input : ResolveInput) (now : Nat) (s : StorageState)
    (hrw : ∀ job, s.jobs.find? (fun j => decide (j.id = jobId)) = some job → 0 ≤ job.reward) :
    ∀ a : String, getBalance s.ledger a ≤
      getBalance (JobEngine.resolveJob cfg agentId jobId input now s).1.ledger a := by
  intro a
  unfold JobEngine.resolveJob IStorage.update
  cases hm : JobEngine.resolveJobMutator cfg agentId jobId input now s with
  | error e =>
    dsimp only
    exact le_refl _
  | ok v =>
    obtain ⟨s₁, res⟩ := v
    dsimp only
    unfold JobEngine.resolveJobMutator at hm
    cases hfind : s.jobs.find? (fun j => decide (j.id = jobId)) with
    | none =>
      rw [hfind] at hm
      exact Except.noConfusion hm
    | some j =>
      have hj := hrw j hfind
      rw [hfind] at hm
      dsimp only at hm
      repeat' split at hm
      all_goals try exact Except.noConfusion hm
      cases hm
      dsimp only
      exact ledger_extension_mono _ _ _ _ a
        (unstake_slash_balance_nonneg cfg j _ now jobId a _)
        (payoutEntries_balance_nonneg j _ now jobId a hj)

/-- C1 counterexample: `resolveJob` succeeds on a job whose reward is `-10`
and leaves the winner with a negative balance — the checked-append invariant
does not extend to `resolveJob`, which writes its ledger entries directly. -/
theorem C1_counterexample :
    exceptIsOk (JobEngine.resolveJob cfg0 "o" "jc1" {} 50 c1CexState).2 = true ∧
      getBalance (JobEngine.resolveJob cfg0 "o" "jc1" {} 50 c1CexState).1.ledger "a" < 0 := by
  constructor
  · rfl
  · norm_num +decide [JobEngine.resolveJob, IStorage.update, JobEngine.resolveJobMutator,
      resolveConsensus, rankBy, List.insertionSort, List.orderedInsert, lexLe,
      strTruthy, manualProvided, optStrList, findArtifact, resolvePayouts,
      resolveSlashInfo, calculateSlashAmount, reputationOf, getBalance, List.foldl,
      replaceFirst, c1CexState, c1CexJob, c1CexSub]

/-- C1 (amended): starting from any state with non-negative balances, every
checked ledger append (`appendEntry`, hence faucet/stake/unstake/payout/
slash), `applyConfigBalances`, `ensureInitialCredits` and `claimJob`
preserves non-negativity of every agent's balance, and an append whose
post-entry balance would be negative is rejected with the insufficiency
error, persisting nothing.  `resolveJob` performs no balance check; it
preserves non-negativity only when the resolved job's reward is
non-negative (its slashes are each covered by the matching unstake). -/
theorem C1_amended (cfg : EngineConfig) (s : StorageState) (hnn : AllBalancesNonneg s) :
    (∀ entry : LedgerEntry, getBalance s.ledger entry.agentId + entry.amount < 0 →
      LedgerEngine.appendEntry cfg entry s =
        (s, Except.error ("consensus-tools: insufficient credits for "
            ++ (entry.agentId ++ " after " ++ entry.type.name)))) ∧
    (∀ entry : LedgerEntry, AllBalancesNonneg (LedgerEngine.appendEntry cfg entry s).1) ∧
    (∀ agentId amount reasonStr now,
      AllBalancesNonneg (LedgerEngine.faucet cfg agentId amount reasonStr now s).1) ∧
    (∀ agentId amount jobId now,
      AllBalancesNonneg (LedgerEngine.stake cfg agentId amount jobId now s).1) ∧
    (∀ agentId amount jobId now,
      AllBalancesNonneg (LedgerEngine.unstake cfg agentId amount jobId now s).1) ∧
    (∀ agentId amount jobId now,
      AllBalancesNonneg (LedgerEngine.payout cfg agentId amount jobId now s).1) ∧
    (∀ agentId amount jobId reasonOpt now,
      AllBalancesNonneg (LedgerEngine.slash cfg agentId amount jobId reasonOpt now s).1) ∧
    (∀ balances mode now,
      AllBalancesNonneg (LedgerEngine.applyConfigBalances balances mode now s).1) ∧
    (∀ agentId now, AllBalancesNonneg (LedgerEngine.ensureInitialCredits cfg agentId now s)) ∧
    (∀ agentId jobId input now,
      AllBalancesNonneg (JobEngine.claimJob cfg agentId jobId input now s).1) ∧
    (∀ agentId jobId input now,
      (∀ job, s.jobs.find? (fun j => decide (j.id = jobId)) = some job → 0 ≤ job.reward) →
      AllBalancesNonneg (JobEngine.resolveJob cfg agentId jobId input now s).1) := by
  refine ⟨?_, ?_, ?_, ?_, ?_, ?_, ?_, ?_, ?_, ?_, ?_⟩
  · exact fun entry h => appendEntry_insufficient cfg entry s h
  · exact fun entry => appendEntry_preserves cfg entry s hnn
  · exact fun agentId amount reasonStr now => appendEntry_preserves cfg _ s hnn
  · exact fun agentId amount jobId now => appendEntry_preserves cfg _ s hnn
  · exact fun agentId amount jobId now => appendEntry_preserves cfg _ s hnn
  · exact fun agentId amount jobId now => appendEntry_preserves cfg _ s hnn
  · exact fun agentId amount jobId reasonOpt now => appendEntry_preserves cfg _ s hnn
  · exact fun balances mode now => applyConfigBalances_preserves balances mode now s hnn
  · exact fun agentId now => ensureInitialCredits_preserves cfg agentId now s hnn
  · exact fun agentId jobId input now => claimJob_preserves cfg agentId jobId input now s hnn
  · intro agentId jobId input now hr a
    exact le_trans (hnn a) (resolveJob_balance_mono cfg agentId jobId input now s hr a)

theorem C1_amended_witness :
    AllBalancesNonneg (LedgerEngine.faucet cfg0 "a" 5 "seed" 0 initialState).1 :=
  (C1_amended cfg0 initialState (fun a => le_of_eq (getBalance_nil a).symm)).2.2.1 "a" 5 "seed" 0
